import Mathlib

/-!
Shallow embedding of the ImmutableData coordination engine of the vault
(source files: src/data_handler/idata_handler.rs, src/data_handler/idata_op.rs,
src/utils.rs, src/vault.rs), together with theorems settling the spec claims.

Machine names, message ids, public keys and coin amounts are modelled as `Nat`.
`BTreeSet<XorName>` is modelled as a strictly sorted `List XorName` built by
`setInsert`; `BTreeMap` is modelled as an association list with the operations
`lookupKey`, `updateKey`, `eraseKey`, `setKey`.
-/

set_option autoImplicit false

namespace Vault

/-- XorName from the routing layer: a 32-byte name, modelled as a natural. -/
abbrev XorName := Nat

/-- MessageId: 128-bit opaque id, modelled as a natural. -/
abbrev MessageId := Nat

/-- A BLS public key, modelled as a natural. -/
abbrev PublicKey := Nat

/-- Coins amount. -/
abbrev Coins := Nat

/-- Modelled from the spec: the `COST_OF_PUT` constant lives in the crate root,
which is not among the provided source files. Its concrete value is irrelevant
to every claim (only `Some COST_OF_PUT` vs `None` matters). -/
def COST_OF_PUT : Coins := 1

/-- The Published / Unpublished tag of an immutable-data address (safe_nd). -/
inductive IDataKind where
  | Pub
  | Unpub
deriving DecidableEq, Repr

/-- IDataAddress: a name plus the Published/Unpublished tag (safe_nd). -/
structure IDataAddress where
  name : XorName
  kind : IDataKind
deriving DecidableEq, Repr

/-- An immutable data chunk: its address plus an abstract payload. -/
structure IData where
  address : IDataAddress
  value : Nat
deriving DecidableEq, Repr

/-- `IData::name` returns the name of the address. -/
def IData.name (d : IData) : XorName := d.address.name

/-- `IData::is_pub` in safe_nd: whether the chunk is Published. -/
def IData.is_pub (d : IData) : Bool := d.address.kind = IDataKind.Pub

/-- The safe_nd error variants reachable in the embedded code.  `Other`
stands for the remaining variants, which the handlers only pass through. -/
inductive NdError where
  | DataExists
  | NoSuchData
  | AccessDenied
  | DuplicateMessageId
  | Other (code : Nat)
deriving DecidableEq, Repr

/-- safe_nd `Result<T> = Result<T, Error>`. -/
inductive NdResult (α : Type) where
  | ok (val : α)
  | error (e : NdError)
deriving DecidableEq, Repr

/-- `Result::err`: the error if any. -/
def NdResult.err {α : Type} : NdResult α → Option NdError
  | .ok _ => none
  | .error e => some e

/-- `Result::is_err`. -/
def NdResult.is_err {α : Type} : NdResult α → Bool
  | .ok _ => false
  | .error _ => true

/-- PublicId from safe_nd: a node, a client, or an app (owned by a client).
Clients and apps carry a public key; nodes do not. -/
inductive PublicId where
  | node (name : XorName)
  | client (name : XorName) (key : PublicKey)
  | app (owner_name : XorName) (key : PublicKey)
deriving DecidableEq, Repr

/-- `utils::own_key`: the public key of a client or app requester, `none` for
a node (src/utils.rs lines 79 to 85). -/
def own_key : PublicId → Option PublicKey
  | .node _ => none
  | .client _ k => some k
  | .app _ k => some k

/-- `utils::get_refund_for_put` (src/utils.rs lines 96 to 102). -/
def get_refund_for_put {α : Type} (result : NdResult α) : Option Coins :=
  if result.is_err then some COST_OF_PUT else none

/-- The response variants produced by the embedded handlers (safe_nd). -/
inductive Response where
  | Mutation (r : NdResult Unit)
  | GetIData (r : NdResult IData)
deriving DecidableEq, Repr

/-- The immutable-data request variants (safe_nd `IDataRequest`). -/
inductive IDataRequest where
  | Put (data : IData)
  | Get (address : IDataAddress)
  | DeleteUnpub (address : IDataAddress)
deriving DecidableEq, Repr

/-- The Rpc envelope, restricted to the fields the idata handlers construct. -/
inductive Rpc where
  | request (request : IDataRequest) (requester : PublicId) (message_id : MessageId)
  | response (requester : PublicId) (response : Response) (message_id : MessageId)
      (refund : Option Coins)
deriving DecidableEq, Repr

/-- The Action variants emitted by the idata handlers. -/
inductive Action where
  | RespondToClientHandlers (sender : XorName) (rpc : Rpc)
  | RespondToOurDataHandlers (sender : XorName) (rpc : Rpc)
  | SendToPeers (sender : XorName) (targets : List XorName) (rpc : Rpc)
deriving DecidableEq, Repr

section AssocList

variable {κ β : Type} [DecidableEq κ]

/-- First value stored under key `k` in an association list (BTreeMap get). -/
def lookupKey (k : κ) : List (κ × β) → Option β
  | [] => none
  | (k', v) :: rest => if k = k' then some v else lookupKey k rest

/-- Replace the value stored under key `k` (used for in-place mutation of an
entry that is known to be present). -/
def updateKey (k : κ) (v : β) : List (κ × β) → List (κ × β)
  | [] => []
  | (k', v') :: rest =>
    if k' = k then (k, v) :: updateKey k v rest else (k', v') :: updateKey k v rest

/-- Remove the entry with key `k` (BTreeMap remove / PickleDb rem). -/
def eraseKey (k : κ) (l : List (κ × β)) : List (κ × β) :=
  l.filter (fun p => decide (p.1 ≠ k))

/-- PickleDb set: replace the value if the key exists, else add the entry. -/
def setKey (k : κ) (v : β) (l : List (κ × β)) : List (κ × β) :=
  if (lookupKey k l).isSome then updateKey k v l else (k, v) :: l

@[simp] theorem lookupKey_nil (k : κ) : lookupKey (β := β) k [] = none := rfl

theorem lookupKey_cons (k k' : κ) (v : β) (l : List (κ × β)) :
    lookupKey k ((k', v) :: l) = if k = k' then some v else lookupKey k l := rfl

@[simp] theorem lookupKey_cons_self (k : κ) (v : β) (l : List (κ × β)) :
    lookupKey k ((k, v) :: l) = some v := by
  simp [lookupKey]

theorem lookupKey_cons_ne (k k' : κ) (v : β) (l : List (κ × β)) (h : k ≠ k') :
    lookupKey k ((k', v) :: l) = lookupKey k l := by
  simp [lookupKey, h]

theorem lookupKey_update_self (k : κ) (v : β) (l : List (κ × β))
    (h : (lookupKey k l).isSome) : lookupKey k (updateKey k v l) = some v := by
  induction l with
  | nil => simp [lookupKey] at h
  | cons p rest ih =>
    obtain ⟨a, b⟩ := p
    by_cases hk : a = k
    · subst hk
      simp [updateKey, lookupKey]
    · have hk' : k ≠ a := fun he => hk he.symm
      rw [lookupKey_cons, if_neg hk'] at h
      simp only [updateKey, if_neg hk]
      rw [lookupKey_cons, if_neg hk']
      exact ih h

theorem lookupKey_update_ne (k k' : κ) (v : β) (l : List (κ × β)) (h : k' ≠ k) :
    lookupKey k' (updateKey k v l) = lookupKey k' l := by
  induction l with
  | nil => simp [updateKey]
  | cons p rest ih =>
    obtain ⟨a, b⟩ := p
    by_cases hk : a = k
    · subst hk
      simp only [updateKey, if_pos rfl, if_true, eq_self_iff_true]
      rw [lookupKey_cons, lookupKey_cons, if_neg h, if_neg h]
      exact ih
    · simp only [updateKey, if_neg hk]
      rw [lookupKey_cons, lookupKey_cons]
      by_cases he : k' = a
      · simp [he]
      · rw [if_neg he, if_neg he]
        exact ih

theorem updateKey_keys (k : κ) (v : β) (l : List (κ × β)) :
    (updateKey k v l).map Prod.fst = l.map Prod.fst := by
  induction l with
  | nil => rfl
  | cons p rest ih =>
    obtain ⟨a, b⟩ := p
    by_cases hk : a = k
    · subst hk
      simp only [updateKey, if_pos rfl, if_true, eq_self_iff_true, List.map_cons]
      rw [ih]
    · simp only [updateKey, if_neg hk, List.map_cons]
      rw [ih]

end AssocList

section SortedSet

/-- Ordered insertion into a strictly sorted list: the model of
`BTreeSet<XorName>::insert`. -/
def setInsert (x : XorName) : List XorName → List XorName
  | [] => [x]
  | y :: ys =>
    if x < y then x :: y :: ys
    else if x = y then y :: ys
    else y :: setInsert x ys

/-- `BTreeSet::remove`. -/
def setRemove (x : XorName) (l : List XorName) : List XorName :=
  l.filter (fun y => decide (y ≠ x))

/-- Collecting a list of names into a `BTreeSet` (sorted, deduplicated). -/
def listToSet (l : List XorName) : List XorName :=
  l.foldl (fun acc x => setInsert x acc) []

theorem mem_setInsert (x y : XorName) (l : List XorName) :
    y ∈ setInsert x l ↔ y = x ∨ y ∈ l := by
  induction l with
  | nil => simp [setInsert]
  | cons z zs ih =>
    by_cases h1 : x < z
    · simp only [setInsert, if_pos h1, List.mem_cons]
    · by_cases h2 : x = z
      · rw [setInsert, if_neg h1, if_pos h2]
        subst h2
        simp only [List.mem_cons]
        tauto
      · rw [setInsert, if_neg h1, if_neg h2]
        simp only [List.mem_cons, ih]
        tauto

end SortedSet

/-- Per-holder response state (src/data_handler/idata_op.rs lines 18 to 29). -/
inductive RpcState where
  | Sent
  | Actioned (err : Option NdError)
  | HolderGone
  | TimedOut
deriving DecidableEq, Repr

/-- The type of ImmutableData operation (src/data_handler/idata_op.rs). -/
inductive OpType where
  | Put
  | Get
  | Delete
  | GetForCopy
  | Copy
deriving DecidableEq, Repr

/-- IDataOp (src/data_handler/idata_op.rs lines 42 to 47): the requester, the
request, and the per-holder rpc states (a `BTreeMap<XorName, RpcState>`). -/
structure IDataOp where
  client : PublicId
  request : IDataRequest
  rpc_states : List (XorName × RpcState)
deriving DecidableEq, Repr

/-- `IDataOp::new` (idata_op.rs lines 50 to 59): every holder starts `Sent`. -/
def IDataOp.new (client : PublicId) (request : IDataRequest)
    (holders : List XorName) : IDataOp :=
  ⟨client, request, holders.map (fun h => (h, RpcState.Sent))⟩

/-- `IDataOp::is_any_actioned` (idata_op.rs lines 69 to 74). -/
def IDataOp.is_any_actioned (op : IDataOp) : Bool :=
  op.rpc_states.any (fun p =>
    match p.2 with
    | RpcState.Actioned _ => true
    | _ => false)

/-- `IDataOp::op_type` (idata_op.rs lines 76 to 82). -/
def IDataOp.op_type (op : IDataOp) : OpType :=
  match op.request with
  | .Put _ => OpType.Put
  | .Get _ => OpType.Get
  | .DeleteUnpub _ => OpType.Delete

/-- `IDataOp::concluded` (idata_op.rs lines 85 to 90): no state is `Sent`. -/
def IDataOp.concluded (op : IDataOp) : Bool :=
  !(op.rpc_states.any (fun p => p.2 = RpcState.Sent))

/-- `IDataOp::get_any_errors` (idata_op.rs lines 92 to 100): the holders whose
state is `Actioned(Some(err))`, as a `BTreeMap<XorName, NdError>`; since
`rpc_states` is ordered by key, `filterMap` keeps that order. -/
def IDataOp.get_any_errors (op : IDataOp) : List (XorName × NdError) :=
  op.rpc_states.filterMap (fun p =>
    match p.2 with
    | RpcState.Actioned (some e) => some (p.1, e)
    | _ => none)

/-- `IDataOp::set_to_actioned` (idata_op.rs lines 200 to 216): `none` when the
sender has no entry (response from an unexpected holder, dropped with a
warning); otherwise the sender entry becomes `Actioned`. -/
def IDataOp.set_to_actioned (op : IDataOp) (sender : XorName)
    (got_error_response : Option NdError) : Option IDataOp :=
  if (lookupKey sender op.rpc_states).isSome then
    some { op with
      rpc_states := updateKey sender (RpcState.Actioned got_error_response) op.rpc_states }
  else none

/-- `IDataOp::handle_mutation_resp` (idata_op.rs lines 102 to 124): rejects a
mutation response on a Get op, records the sender as Actioned, and returns the
address of the chunk (paired here with the updated op, which the source
mutates in place). -/
def IDataOp.handle_mutation_resp (op : IDataOp) (sender : XorName)
    (result : NdResult Unit) : Option (IDataOp × IDataAddress) :=
  match op.request with
  | .Get _ => none
  | .Put data =>
    (op.set_to_actioned sender result.err).map (fun op2 => (op2, data.address))
  | .DeleteUnpub address =>
    (op.set_to_actioned sender result.err).map (fun op2 => (op2, address))

/-- `IDataOp::handle_get_idata_resp` (idata_op.rs lines 163 to 198): on a Get
op, records the sender as Actioned; the response action is produced only when
no state was Actioned before this response.  Returns the updated op (mutated
in place in the source) together with the optional action. -/
def IDataOp.handle_get_idata_resp (op : IDataOp) (sender : XorName)
    (result : NdResult IData) (message_id : MessageId) : IDataOp × Option Action :=
  match op.request with
  | .Get address =>
    let is_already_actioned := op.is_any_actioned
    match op.set_to_actioned sender result.err with
    | none => (op, none)
    | some op2 =>
      (op2,
        if is_already_actioned then none
        else some (Action.RespondToClientHandlers address.name
          (Rpc.response op.client (Response.GetIData result) message_id none)))
  | .Put _ => (op, none)
  | .DeleteUnpub _ => (op, none)

/-- ChunkMetadata (src/data_handler/idata_handler.rs lines 30 to 34). -/
structure ChunkMetadata where
  holders : List XorName
  owner : Option PublicKey
deriving DecidableEq, Repr

/-- The `Default` instance used by `unwrap_or_default`. -/
def ChunkMetadata.default : ChunkMetadata := ⟨[], none⟩

/-- `IMMUTABLE_DATA_COPY_COUNT` (idata_handler.rs line 28). -/
def IMMUTABLE_DATA_COPY_COUNT : Nat := 3

/-- The mutable state of `IDataHandler` (idata_handler.rs lines 36 to 44):
its node name, the operation ledger, and the persisted metadata store keyed
by chunk address (the db key is the serialisation of the address, which
round-trips, so the address itself is used as the key here). -/
structure HState where
  id_name : XorName
  idata_ops : List (MessageId × IDataOp)
  metadata : List (IDataAddress × ChunkMetadata)
deriving DecidableEq, Repr

/-- `make_holder_list_for_idata` (idata_handler.rs lines 563 to 585).  The
routing calls `our_adults_sorted_by_distance_to` and
`closest_known_elders_to` are external collaborators; their results are taken
as parameters, already sorted ascending by XOR distance to the target. -/
def make_holder_list_for_idata (closest_adults closest_elders : List XorName) :
    List XorName :=
  if closest_adults.length < IMMUTABLE_DATA_COPY_COUNT then
    closest_adults ++
      closest_elders.take (IMMUTABLE_DATA_COPY_COUNT - closest_adults.length)
  else
    closest_adults

/-- Modelled from the spec: `select_holders` as section 4.2 of the spec
describes it (sort adults by distance, filter out the Full-Adults set, take
up to `REPLICA_COUNT`, then pad with the closest elders). -/
def select_holders_spec (closest_adults closest_elders full_adults : List XorName) :
    List XorName :=
  let adults := (closest_adults.filter (fun a => decide (a ∉ full_adults))).take
    IMMUTABLE_DATA_COPY_COUNT
  if adults.length < IMMUTABLE_DATA_COPY_COUNT then
    adults ++ closest_elders.take (IMMUTABLE_DATA_COPY_COUNT - adults.length)
  else
    adults

namespace HState

/-- `get_metadata_for` (idata_handler.rs lines 513 to 528): absent metadata or
metadata with an empty holder set yields `NoSuchData`. -/
def get_metadata_for (s : HState) (address : IDataAddress) : NdResult ChunkMetadata :=
  match lookupKey address s.metadata with
  | some metadata =>
    if metadata.holders.isEmpty then NdResult.error NdError.NoSuchData
    else NdResult.ok metadata
  | none => NdResult.error NdError.NoSuchData

/-- `remove_idata_op_if_concluded` (idata_handler.rs lines 552 to 561). -/
def remove_idata_op_if_concluded (s : HState) (message_id : MessageId) :
    HState × Option IDataOp :=
  match lookupKey message_id s.idata_ops with
  | some op =>
    if op.concluded then
      ({ s with idata_ops := eraseKey message_id s.idata_ops }, some op)
    else (s, none)
  | none => (s, none)

/-- `handle_put_idata_req` (idata_handler.rs lines 66 to 129).  The two lists
are the routing snapshot sorted ascending by XOR distance to `data.name()`. -/
def handle_put_idata_req (s : HState) (requester : PublicId) (data : IData)
    (message_id : MessageId) (closest_adults closest_elders : List XorName) :
    HState × Option Action :=
  let respond := fun (result : NdResult Unit) =>
    some (Action.RespondToClientHandlers s.id_name
      (Rpc.response requester (Response.Mutation result) message_id
        (get_refund_for_put result)))
  if (lookupKey data.address s.metadata).isSome then
    if data.is_pub then (s, respond (NdResult.ok ()))
    else (s, respond (NdResult.error NdError.DataExists))
  else
    let target_holders :=
      listToSet (make_holder_list_for_idata closest_adults closest_elders)
    let idata_op := IDataOp.new requester (IDataRequest.Put data) target_holders
    match lookupKey message_id s.idata_ops with
    | some _ => (s, respond (NdResult.error NdError.DuplicateMessageId))
    | none =>
      ({ s with idata_ops := (message_id, idata_op) :: s.idata_ops },
        some (Action.SendToPeers s.id_name target_holders
          (Rpc.request (IDataRequest.Put data) (PublicId.node s.id_name) message_id)))

/-- `handle_get_idata_req` (idata_handler.rs lines 229 to 284).  When the
requester is a node, `utils::own_key(&requester)?` aborts the handler with no
action at all; clients and apps failing the owner check get `AccessDenied`. -/
def handle_get_idata_req (s : HState) (requester : PublicId)
    (address : IDataAddress) (message_id : MessageId) : HState × Option Action :=
  let respond := fun (result : NdResult IData) =>
    some (Action.RespondToClientHandlers s.id_name
      (Rpc.response requester (Response.GetIData result) message_id none))
  match s.get_metadata_for address with
  | NdResult.error e => (s, respond (NdResult.error e))
  | NdResult.ok metadata =>
    let proceed : HState × Option Action :=
      let idata_op := IDataOp.new requester (IDataRequest.Get address) metadata.holders
      match lookupKey message_id s.idata_ops with
      | some _ => (s, respond (NdResult.error NdError.DuplicateMessageId))
      | none =>
        ({ s with idata_ops := (message_id, idata_op) :: s.idata_ops },
          some (Action.SendToPeers s.id_name metadata.holders
            (Rpc.request (IDataRequest.Get address) (PublicId.node s.id_name)
              message_id)))
    match metadata.owner with
    | some data_owner =>
      match own_key requester with
      | none => (s, none)
      | some request_key =>
        if data_owner ≠ request_key then
          (s, respond (NdResult.error NdError.AccessDenied))
        else proceed
    | none => proceed

/-- `handle_delete_unpub_idata_req` (idata_handler.rs lines 131 to 186); same
shape as the Get admission but with `Mutation` responses and no refund. -/
def handle_delete_unpub_idata_req (s : HState) (requester : PublicId)
    (address : IDataAddress) (message_id : MessageId) : HState × Option Action :=
  let respond := fun (result : NdResult Unit) =>
    some (Action.RespondToClientHandlers s.id_name
      (Rpc.response requester (Response.Mutation result) message_id none))
  match s.get_metadata_for address with
  | NdResult.error e => (s, respond (NdResult.error e))
  | NdResult.ok metadata =>
    let proceed : HState × Option Action :=
      let idata_op :=
        IDataOp.new requester (IDataRequest.DeleteUnpub address) metadata.holders
      match lookupKey message_id s.idata_ops with
      | some _ => (s, respond (NdResult.error NdError.DuplicateMessageId))
      | none =>
        ({ s with idata_ops := (message_id, idata_op) :: s.idata_ops },
          some (Action.SendToPeers s.id_name metadata.holders
            (Rpc.request (IDataRequest.DeleteUnpub address) (PublicId.node s.id_name)
              message_id)))
    match metadata.owner with
    | some data_owner =>
      match own_key requester with
      | none => (s, none)
      | some request_key =>
        if data_owner ≠ request_key then
          (s, respond (NdResult.error NdError.AccessDenied))
        else proceed
    | none => proceed

/-- The tail of `handle_put_idata_resp` (idata_handler.rs lines 361 to 377):
persist the merged metadata, then remove the op if concluded and answer the
client with `Mutation(Ok(()))`. -/
def persist_and_conclude_put (s : HState) (idata_address : IDataAddress)
    (message_id : MessageId) (md : ChunkMetadata) : HState × Option Action :=
  let s2 := { s with metadata := setKey idata_address md s.metadata }
  let pr := s2.remove_idata_op_if_concluded message_id
  match pr.2 with
  | some op2 =>
    (pr.1, some (Action.RespondToClientHandlers idata_address.name
      (Rpc.response op2.client (Response.Mutation (NdResult.ok ())) message_id none)))
  | none => (pr.1, none)

/-- `handle_put_idata_resp` (idata_handler.rs lines 317 to 377).  The `result`
argument is ignored by the source (phase 1 assumes success).  When the ledger
still holds the op and its requester is a node, `own_key(...)?` aborts the
whole handler before anything is persisted.  When the op is gone and the
sender is already a holder, the duplicate-insertion warning evaluates
`self.idata_op(&message_id)?`, which likewise aborts the handler. -/
def handle_put_idata_resp (s : HState) (idata_address : IDataAddress)
    (sender : XorName) (message_id : MessageId) : HState × Option Action :=
  let md0 := (lookupKey idata_address s.metadata).getD ChunkMetadata.default
  match lookupKey message_id s.idata_ops with
  | some op =>
    match own_key op.client with
    | none => (s, none)
    | some public_key =>
      persist_and_conclude_put s idata_address message_id
        ({ md0 with owner := some public_key, holders := setInsert sender md0.holders })
  | none =>
    if md0.holders.contains sender then (s, none)
    else
      persist_and_conclude_put s idata_address message_id
        ({ md0 with holders := setInsert sender md0.holders })

/-- The conclusion step of `handle_delete_unpub_idata_resp` (idata_handler.rs
lines 421 to 446): remove the op if concluded and build the final response
from `get_any_errors`; the `assert!(errors_for_req.len() <= 1)` panic is
modelled as `none`. -/
def conclude_delete_unpub (s : HState) (idata_address : IDataAddress)
    (message_id : MessageId) : Option (HState × Option Action) :=
  match s.remove_idata_op_if_concluded message_id with
  | (s2, some op2) =>
    let errors_for_req := op2.get_any_errors
    if errors_for_req.length ≤ 1 then
      let response : NdResult Unit :=
        match errors_for_req.head? with
        | some pe => NdResult.error pe.2
        | none => NdResult.ok ()
      some (s2, some (Action.RespondToClientHandlers idata_address.name
        (Rpc.response op2.client (Response.Mutation response) message_id none)))
    else none
  | (s2, none) => some (s2, none)

/-- `handle_delete_unpub_idata_resp` (idata_handler.rs lines 379 to 447).
An error result only warns; an ok result removes the sender from the
persisted holders, dropping the record when the set becomes empty.  When the
sender was not a holder and the op is missing, the warning evaluates
`self.idata_op(&message_id)?`, aborting the handler before the conclusion
step.  The outer `Option` is the assertion in `conclude_delete_unpub`. -/
def handle_delete_unpub_idata_resp (s : HState) (idata_address : IDataAddress)
    (sender : XorName) (result : NdResult Unit) (message_id : MessageId) :
    Option (HState × Option Action) :=
  match result with
  | NdResult.error _ => s.conclude_delete_unpub idata_address message_id
  | NdResult.ok _ =>
    match lookupKey idata_address s.metadata with
    | none => s.conclude_delete_unpub idata_address message_id
    | some metadata =>
      if metadata.holders.contains sender then
        let holders2 := setRemove sender metadata.holders
        let s2 :=
          if holders2.isEmpty then
            { s with metadata := eraseKey idata_address s.metadata }
          else
            { s with
              metadata :=
                setKey idata_address ({ metadata with holders := holders2 }) s.metadata }
        s2.conclude_delete_unpub idata_address message_id
      else
        match lookupKey message_id s.idata_ops with
        | none => some (s, none)
        | some _ =>
          let s2 :=
            if metadata.holders.isEmpty then
              { s with metadata := eraseKey idata_address s.metadata }
            else
              { s with metadata := setKey idata_address metadata s.metadata }
          s2.conclude_delete_unpub idata_address message_id

/-- `handle_mutation_resp` (idata_handler.rs lines 296 to 315): look up the
op, record the sender as Actioned, and dispatch on the op type.  The outer
`Option` is the delete-path assertion; every other path is `some`. -/
def handle_mutation_resp (s : HState) (sender : XorName) (result : NdResult Unit)
    (message_id : MessageId) : Option (HState × Option Action) :=
  match lookupKey message_id s.idata_ops with
  | none => some (s, none)
  | some op =>
    match op.handle_mutation_resp sender result with
    | none => some (s, none)
    | some (op2, idata_address) =>
      let s2 := { s with idata_ops := updateKey message_id op2 s.idata_ops }
      if op.op_type = OpType.Put then
        some (s2.handle_put_idata_resp idata_address sender message_id)
      else
        s2.handle_delete_unpub_idata_resp idata_address sender result message_id

/-- `handle_get_idata_resp` (idata_handler.rs lines 449 to 461): delegate to
the op (which is mutated in place), then remove the op if concluded. -/
def handle_get_idata_resp (s : HState) (sender : XorName) (result : NdResult IData)
    (message_id : MessageId) : HState × Option Action :=
  match lookupKey message_id s.idata_ops with
  | none => (s, none)
  | some op =>
    let pr := op.handle_get_idata_resp sender result message_id
    let s2 := { s with idata_ops := updateKey message_id pr.1 s.idata_ops }
    ((s2.remove_idata_op_if_concluded message_id).1, pr.2)

end HState

/-- Processing of a sequence of mutation responses for one message id,
counting the actions emitted; `none` models a panic of the source. -/
def run_mutation_resps (message_id : MessageId) :
    HState → List (XorName × NdResult Unit) → Option (HState × Nat)
  | s, [] => some (s, 0)
  | s, r :: rs =>
    match s.handle_mutation_resp r.1 r.2 message_id with
    | none => none
    | some (s2, a) =>
      match run_mutation_resps message_id s2 rs with
      | none => none
      | some (sf, n) => some (sf, (if a.isSome then 1 else 0) + n)

/-- Processing of a sequence of get responses for one message id, counting
the actions emitted. -/
def run_get_resps (message_id : MessageId) :
    HState → List (XorName × NdResult IData) → HState × Nat
  | s, [] => (s, 0)
  | s, r :: rs =>
    let pr := s.handle_get_idata_resp r.1 r.2 message_id
    let rest := run_get_resps message_id pr.1 rs
    (rest.1, (if pr.2.isSome then 1 else 0) + rest.2)

/-- The signature accumulator: `SignatureAccumulator::new()` is empty; its
internals are irrelevant to the claims about role transitions. -/
abbrev Accumulator := List (IDataRequest × MessageId)

/-- The vault role state (src/vault.rs lines 40 to 52): Infant has no
handlers, Adult has a data handler and an accumulator, Elder additionally has
a client handler (opaque here). -/
inductive VState where
  | Infant
  | Adult (data_handler : HState) (accumulator : Accumulator)
  | Elder (client_handler : Unit) (data_handler : HState) (accumulator : Accumulator)
deriving DecidableEq, Repr

/-- `matches!(self.state, State::Elder { .. })` (vault.rs line 922). -/
def VState.is_elder : VState → Bool
  | .Elder _ _ _ => true
  | _ => false

/-- Whether the state owns a client handler (vault.rs lines 854 to 863). -/
def VState.has_client_handler : VState → Bool
  | .Elder _ _ _ => true
  | _ => false

/-- The vault model for the role claims: the node full id, the role state,
and the contents of the on-disk `state` file, a serialized
`(bool is_elder, NodeFullId)` record (vault.rs lines 920 to 934). -/
structure VaultModel where
  id : Nat
  state : VState
  disk : Option (Bool × Nat)
deriving DecidableEq, Repr

/-- A data handler created with `Init::New` (vault.rs lines 221 to 228):
fresh databases and an empty ledger. -/
def freshDataHandler (name : XorName) : HState := ⟨name, [], []⟩

/-- `dump_state` (vault.rs lines 920 to 924): write `(is_elder, id)`. -/
def dump_state (v : VaultModel) : VaultModel :=
  { v with disk := some (v.state.is_elder, v.id) }

/-- `Vault::new` (vault.rs lines 82 to 151): read the state file; a missing
file yields `(false, fresh id)`; an `is_elder` record starts as Elder, any
other start is Infant; finally `dump_state` runs once. -/
def vault_new (prev_disk : Option (Bool × Nat)) (fresh_id : Nat) : VaultModel :=
  let p := prev_disk.getD (false, fresh_id)
  let state :=
    if p.1 then VState.Elder () (freshDataHandler p.2) []
    else VState.Infant
  dump_state { id := p.2, state := state, disk := prev_disk }

/-- The routing events that reach the role match arms of
`handle_routing_event` (vault.rs lines 339 to 408).  `MemberJoined` only
logs; `Promoted` and `Connected` replace the role state. -/
inductive RoutingEvent where
  | Promoted
  | Connected
  | MemberJoined
deriving DecidableEq, Repr

/-- `promote_to_adult` (vault.rs lines 217 to 234): the state becomes Adult
with a data handler built with `Init::New` and a new accumulator, whatever
the previous state was.  The state file is not rewritten. -/
def promote_to_adult (v : VaultModel) : VaultModel :=
  { v with state := VState.Adult (freshDataHandler v.id) [] }

/-- `promote_to_elder` (vault.rs lines 236 to 261): the state becomes Elder
with both handlers built with `Init::New` and a new accumulator.  The state
file is not rewritten. -/
def promote_to_elder (v : VaultModel) : VaultModel :=
  { v with state := VState.Elder () (freshDataHandler v.id) [] }

/-- The role-changing arms of `handle_routing_event` (vault.rs lines 339 to
408): `Promoted` runs `promote_to_elder`, `Connected` runs
`promote_to_adult`, `MemberJoined` only logs counts. -/
def handle_routing_event (v : VaultModel) : RoutingEvent → VaultModel
  | .Promoted => promote_to_elder v
  | .Connected => promote_to_adult v
  | .MemberJoined => v

/-! Theorems settling the claims, preceded by shared helper lemmas. -/

theorem get_metadata_for_none (s : HState) (address : IDataAddress)
    (h : lookupKey address s.metadata = none) :
    s.get_metadata_for address = NdResult.error NdError.NoSuchData := by
  simp [HState.get_metadata_for, h]

theorem get_metadata_for_empty (s : HState) (address : IDataAddress)
    (m : ChunkMetadata) (h : lookupKey address s.metadata = some m)
    (he : m.holders = []) :
    s.get_metadata_for address = NdResult.error NdError.NoSuchData := by
  simp [HState.get_metadata_for, h, he]

theorem get_metadata_for_ok (s : HState) (address : IDataAddress)
    (m : ChunkMetadata) (h : lookupKey address s.metadata = some m)
    (he : m.holders ≠ []) :
    s.get_metadata_for address = NdResult.ok m := by
  simp [HState.get_metadata_for, h, List.isEmpty_iff, he]

/-- Claim C1, counterexample: with four section adults (and an empty
Full-Adults set) the holder-selection function returns all four names, not a
list truncated to `REPLICA_COUNT = 3`, and it differs from the selection the
spec describes. -/
theorem C1_counterexample :
    make_holder_list_for_idata [1, 2, 3, 4] [] = [1, 2, 3, 4] ∧
    (make_holder_list_for_idata [1, 2, 3, 4] []).length ≠ IMMUTABLE_DATA_COPY_COUNT ∧
    make_holder_list_for_idata [1, 2, 3, 4] [] ≠ select_holders_spec [1, 2, 3, 4] [] [] := by
  decide

/-- Claim C1 as amended: the holder list is all section adults sorted by XOR
distance, with no Full-Adults filtering and no truncation; only when fewer
than 3 adults exist are the closest elders appended, at most `3 - |adults|`
of them, giving a list of length `min 3 (|adults| + |elders|)`. -/
theorem C1_theorem (closest_adults closest_elders : List XorName) :
    (IMMUTABLE_DATA_COPY_COUNT ≤ closest_adults.length →
      make_holder_list_for_idata closest_adults closest_elders = closest_adults) ∧
    (closest_adults.length < IMMUTABLE_DATA_COPY_COUNT →
      make_holder_list_for_idata closest_adults closest_elders =
        closest_adults ++
          closest_elders.take (IMMUTABLE_DATA_COPY_COUNT - closest_adults.length) ∧
      (make_holder_list_for_idata closest_adults closest_elders).length =
        min IMMUTABLE_DATA_COPY_COUNT
          (closest_adults.length + closest_elders.length)) := by
  constructor
  · intro h
    simp [make_holder_list_for_idata, Nat.not_lt.mpr h]
  · intro h
    refine ⟨by simp [make_holder_list_for_idata, h], ?_⟩
    simp only [make_holder_list_for_idata, if_pos h, List.length_append,
      List.length_take]
    simp only [IMMUTABLE_DATA_COPY_COUNT] at h ⊢
    omega

/-- Claim C1 amended, witness: a section with one adult and three elders. -/
theorem C1_theorem_witness :
    make_holder_list_for_idata [5] [8, 9, 10] = [5, 8, 9] ∧
    (make_holder_list_for_idata [5] [8, 9, 10]).length = 3 :=
  ⟨by
    have h := (C1_theorem [5] [8, 9, 10]).2 (by decide)
    rw [h.1]
    rfl,
   by
    have h := (C1_theorem [5] [8, 9, 10]).2 (by decide)
    rw [h.2]
    rfl⟩

/-- Claim C2: a PUT whose address already has metadata is answered
immediately, with `Mutation(Ok(()))` for a Published chunk and
`Mutation(Err(DataExists))` for an Unpublished one, the state (ledger and
metadata) unchanged and no `SendToPeers` emitted. -/
theorem C2_theorem (s : HState) (requester : PublicId) (data : IData)
    (message_id : MessageId) (closest_adults closest_elders : List XorName)
    (h : (lookupKey data.address s.metadata).isSome) :
    s.handle_put_idata_req requester data message_id closest_adults closest_elders =
      (s, some (Action.RespondToClientHandlers s.id_name
        (Rpc.response requester
          (Response.Mutation
            (if data.is_pub then NdResult.ok () else NdResult.error NdError.DataExists))
          message_id
          (if data.is_pub then none else some COST_OF_PUT)))) := by
  unfold HState.handle_put_idata_req
  rw [if_pos h]
  cases hp : data.is_pub <;>
    simp [hp, get_refund_for_put, NdResult.is_err]

/-- Claim C2, witness: a Published and an Unpublished PUT against existing
metadata. -/
theorem C2_theorem_witness :
    (lookupKey (⟨100, IDataKind.Pub⟩ : IDataAddress)
      (HState.mk 50 [] [(⟨100, IDataKind.Pub⟩, ⟨[1], none⟩)]).metadata).isSome = true ∧
    HState.handle_put_idata_req ⟨50, [], [(⟨100, IDataKind.Pub⟩, ⟨[1], none⟩)]⟩
        (PublicId.client 7 77) ⟨⟨100, IDataKind.Pub⟩, 5⟩ 1000 [1, 2, 3] [] =
      (⟨50, [], [(⟨100, IDataKind.Pub⟩, ⟨[1], none⟩)]⟩,
        some (Action.RespondToClientHandlers 50
          (Rpc.response (PublicId.client 7 77)
            (Response.Mutation (NdResult.ok ())) 1000 none))) := by
  refine ⟨by decide, ?_⟩
  have h := C2_theorem ⟨50, [], [(⟨100, IDataKind.Pub⟩, ⟨[1], none⟩)]⟩
    (PublicId.client 7 77) ⟨⟨100, IDataKind.Pub⟩, 5⟩ 1000 [1, 2, 3] [] (by decide)
  simpa using h

/-- Claim C3: for every admission that reaches the duplicate-id check (a PUT
whose address has no metadata; a GET or DELETE-unpublished whose metadata and
owner checks pass) while the message id already has a live operation, the
handler replies with a DuplicateMessageId error and returns the state
unchanged, so no second operation is inserted and the live operation is
untouched. -/
theorem C3_theorem (s : HState) (requester : PublicId) (data : IData)
    (address : IDataAddress) (message_id : MessageId)
    (closest_adults closest_elders : List XorName) (op0 : IDataOp)
    (m : ChunkMetadata)
    (hdup : lookupKey message_id s.idata_ops = some op0) :
    (lookupKey data.address s.metadata = none →
      s.handle_put_idata_req requester data message_id closest_adults closest_elders =
        (s, some (Action.RespondToClientHandlers s.id_name
          (Rpc.response requester
            (Response.Mutation (NdResult.error NdError.DuplicateMessageId))
            message_id (some COST_OF_PUT))))) ∧
    (lookupKey address s.metadata = some m → m.holders ≠ [] →
      (∀ o, m.owner = some o → own_key requester = some o) →
      s.handle_get_idata_req requester address message_id =
        (s, some (Action.RespondToClientHandlers s.id_name
          (Rpc.response requester
            (Response.GetIData (NdResult.error NdError.DuplicateMessageId))
            message_id none))) ∧
      s.handle_delete_unpub_idata_req requester address message_id =
        (s, some (Action.RespondToClientHandlers s.id_name
          (Rpc.response requester
            (Response.Mutation (NdResult.error NdError.DuplicateMessageId))
            message_id none)))) := by
  constructor
  · intro hmeta
    unfold HState.handle_put_idata_req
    rw [hmeta]
    simp [hdup, get_refund_for_put, NdResult.is_err]
  · intro hm hne hacc
    have hok := get_metadata_for_ok s address m hm hne
    constructor
    · unfold HState.handle_get_idata_req
      rw [hok]
      cases ho : m.owner with
      | none => simp [ho, hdup]
      | some o => simp [ho, hacc o ho, hdup]
    · unfold HState.handle_delete_unpub_idata_req
      rw [hok]
      cases ho : m.owner with
      | none => simp [ho, hdup]
      | some o => simp [ho, hacc o ho, hdup]

/-- Claim C3, witness: a state with a live op under id 1000, with metadata
absent for the PUT address and present for the GET and DELETE address. -/
theorem C3_theorem_witness :
    HState.handle_put_idata_req
        ⟨50, [(1000, IDataOp.new (PublicId.client 7 77)
          (IDataRequest.Get ⟨200, IDataKind.Pub⟩) [1])],
          [(⟨200, IDataKind.Pub⟩, ⟨[1], none⟩)]⟩
        (PublicId.client 7 77) ⟨⟨100, IDataKind.Pub⟩, 5⟩ 1000 [1, 2, 3] [] =
      (⟨50, [(1000, IDataOp.new (PublicId.client 7 77)
          (IDataRequest.Get ⟨200, IDataKind.Pub⟩) [1])],
          [(⟨200, IDataKind.Pub⟩, ⟨[1], none⟩)]⟩,
        some (Action.RespondToClientHandlers 50
          (Rpc.response (PublicId.client 7 77)
            (Response.Mutation (NdResult.error NdError.DuplicateMessageId))
            1000 (some COST_OF_PUT)))) ∧
    HState.handle_get_idata_req
        ⟨50, [(1000, IDataOp.new (PublicId.client 7 77)
          (IDataRequest.Get ⟨200, IDataKind.Pub⟩) [1])],
          [(⟨200, IDataKind.Pub⟩, ⟨[1], none⟩)]⟩
        (PublicId.client 7 77) ⟨200, IDataKind.Pub⟩ 1000 =
      (⟨50, [(1000, IDataOp.new (PublicId.client 7 77)
          (IDataRequest.Get ⟨200, IDataKind.Pub⟩) [1])],
          [(⟨200, IDataKind.Pub⟩, ⟨[1], none⟩)]⟩,
        some (Action.RespondToClientHandlers 50
          (Rpc.response (PublicId.client 7 77)
            (Response.GetIData (NdResult.error NdError.DuplicateMessageId))
            1000 none))) := by
  have h := C3_theorem
    ⟨50, [(1000, IDataOp.new (PublicId.client 7 77)
      (IDataRequest.Get ⟨200, IDataKind.Pub⟩) [1])],
      [(⟨200, IDataKind.Pub⟩, ⟨[1], none⟩)]⟩
    (PublicId.client 7 77) ⟨⟨100, IDataKind.Pub⟩, 5⟩ ⟨200, IDataKind.Pub⟩ 1000
    [1, 2, 3] []
    (IDataOp.new (PublicId.client 7 77) (IDataRequest.Get ⟨200, IDataKind.Pub⟩) [1])
    ⟨[1], none⟩ (by decide)
  exact ⟨h.1 (by decide),
    (h.2 (by decide) (by decide) (by intro o ho; cases ho)).1⟩

/-- Claim C7: for GET and DELETE-unpublished admissions, absent metadata or
an empty holder set yields NoSuchData; a recorded owner different from the
requester key yields AccessDenied; otherwise, with a fresh message id, an
operation over exactly `metadata.holders` is inserted and a `SendToPeers` to
those holders is emitted. -/
theorem C7_theorem (s : HState) (requester : PublicId) (address : IDataAddress)
    (message_id : MessageId) (m : ChunkMetadata) (o k : PublicKey) :
    (lookupKey address s.metadata = none →
      s.handle_get_idata_req requester address message_id =
        (s, some (Action.RespondToClientHandlers s.id_name
          (Rpc.response requester
            (Response.GetIData (NdResult.error NdError.NoSuchData)) message_id none))) ∧
      s.handle_delete_unpub_idata_req requester address message_id =
        (s, some (Action.RespondToClientHandlers s.id_name
          (Rpc.response requester
            (Response.Mutation (NdResult.error NdError.NoSuchData)) message_id none)))) ∧
    (lookupKey address s.metadata = some m → m.holders = [] →
      s.handle_get_idata_req requester address message_id =
        (s, some (Action.RespondToClientHandlers s.id_name
          (Rpc.response requester
            (Response.GetIData (NdResult.error NdError.NoSuchData)) message_id none))) ∧
      s.handle_delete_unpub_idata_req requester address message_id =
        (s, some (Action.RespondToClientHandlers s.id_name
          (Rpc.response requester
            (Response.Mutation (NdResult.error NdError.NoSuchData)) message_id none)))) ∧
    (lookupKey address s.metadata = some m → m.holders ≠ [] →
      m.owner = some o → own_key requester = some k → k ≠ o →
      s.handle_get_idata_req requester address message_id =
        (s, some (Action.RespondToClientHandlers s.id_name
          (Rpc.response requester
            (Response.GetIData (NdResult.error NdError.AccessDenied)) message_id none))) ∧
      s.handle_delete_unpub_idata_req requester address message_id =
        (s, some (Action.RespondToClientHandlers s.id_name
          (Rpc.response requester
            (Response.Mutation (NdResult.error NdError.AccessDenied)) message_id none)))) ∧
    (lookupKey address s.metadata = some m → m.holders ≠ [] →
      (∀ o2, m.owner = some o2 → own_key requester = some o2) →
      lookupKey message_id s.idata_ops = none →
      s.handle_get_idata_req requester address message_id =
        ({ s with idata_ops :=
            (message_id, IDataOp.new requester (IDataRequest.Get address) m.holders)
              :: s.idata_ops },
          some (Action.SendToPeers s.id_name m.holders
            (Rpc.request (IDataRequest.Get address) (PublicId.node s.id_name)
              message_id))) ∧
      s.handle_delete_unpub_idata_req requester address message_id =
        ({ s with idata_ops :=
            (message_id, IDataOp.new requester (IDataRequest.DeleteUnpub address)
              m.holders) :: s.idata_ops },
          some (Action.SendToPeers s.id_name m.holders
            (Rpc.request (IDataRequest.DeleteUnpub address) (PublicId.node s.id_name)
              message_id)))) := by
  refine ⟨?_, ?_, ?_, ?_⟩
  · intro hnone
    have he := get_metadata_for_none s address hnone
    constructor
    · unfold HState.handle_get_idata_req
      rw [he]
    · unfold HState.handle_delete_unpub_idata_req
      rw [he]
  · intro hm hemp
    have he := get_metadata_for_empty s address m hm hemp
    constructor
    · unfold HState.handle_get_idata_req
      rw [he]
    · unfold HState.handle_delete_unpub_idata_req
      rw [he]
  · intro hm hne ho hk hko
    have he := get_metadata_for_ok s address m hm hne
    have hok : o ≠ k := fun hx => hko hx.symm
    constructor
    · unfold HState.handle_get_idata_req
      rw [he]
      simp [ho, hk, hok]
    · unfold HState.handle_delete_unpub_idata_req
      rw [he]
      simp [ho, hk, hok]
  · intro hm hne hacc hfresh
    have he := get_metadata_for_ok s address m hm hne
    constructor
    · unfold HState.handle_get_idata_req
      rw [he]
      cases ho : m.owner with
      | none => simp [ho, hfresh]
      | some o2 => simp [ho, hacc o2 ho, hfresh]
    · unfold HState.handle_delete_unpub_idata_req
      rw [he]
      cases ho : m.owner with
      | none => simp [ho, hfresh]
      | some o2 => simp [ho, hacc o2 ho, hfresh]

/-- Claim C7, witness: the NoSuchData, AccessDenied and happy paths of the
GET admission at concrete states. -/
theorem C7_theorem_witness :
    HState.handle_get_idata_req ⟨50, [], []⟩ (PublicId.client 7 77)
        ⟨100, IDataKind.Pub⟩ 2000 =
      (⟨50, [], []⟩, some (Action.RespondToClientHandlers 50
        (Rpc.response (PublicId.client 7 77)
          (Response.GetIData (NdResult.error NdError.NoSuchData)) 2000 none))) ∧
    HState.handle_get_idata_req
        ⟨50, [], [(⟨100, IDataKind.Unpub⟩, ⟨[1, 2], some 77⟩)]⟩
        (PublicId.client 7 88) ⟨100, IDataKind.Unpub⟩ 2000 =
      (⟨50, [], [(⟨100, IDataKind.Unpub⟩, ⟨[1, 2], some 77⟩)]⟩,
        some (Action.RespondToClientHandlers 50
          (Rpc.response (PublicId.client 7 88)
            (Response.GetIData (NdResult.error NdError.AccessDenied)) 2000 none))) ∧
    HState.handle_get_idata_req
        ⟨50, [], [(⟨100, IDataKind.Unpub⟩, ⟨[1, 2], some 77⟩)]⟩
        (PublicId.client 7 77) ⟨100, IDataKind.Unpub⟩ 2000 =
      (⟨50, [(2000, IDataOp.new (PublicId.client 7 77)
          (IDataRequest.Get ⟨100, IDataKind.Unpub⟩) [1, 2])],
          [(⟨100, IDataKind.Unpub⟩, ⟨[1, 2], some 77⟩)]⟩,
        some (Action.SendToPeers 50 [1, 2]
          (Rpc.request (IDataRequest.Get ⟨100, IDataKind.Unpub⟩)
            (PublicId.node 50) 2000))) := by
  refine ⟨?_, ?_, ?_⟩
  · exact ((C7_theorem ⟨50, [], []⟩ (PublicId.client 7 77) ⟨100, IDataKind.Pub⟩
      2000 ⟨[], none⟩ 0 0).1 (by decide)).1
  · exact ((C7_theorem ⟨50, [], [(⟨100, IDataKind.Unpub⟩, ⟨[1, 2], some 77⟩)]⟩
      (PublicId.client 7 88) ⟨100, IDataKind.Unpub⟩ 2000 ⟨[1, 2], some 77⟩ 77
      88).2.2.1 (by decide) (by decide) (by decide) (by decide) (by decide)).1
  · exact ((C7_theorem ⟨50, [], [(⟨100, IDataKind.Unpub⟩, ⟨[1, 2], some 77⟩)]⟩
      (PublicId.client 7 77) ⟨100, IDataKind.Unpub⟩ 2000 ⟨[1, 2], some 77⟩ 0
      0).2.2.2 (by decide) (by decide)
      (by intro o2 ho2; cases ho2; rfl) (by decide)).1

theorem lookupKey_erase_self {κ β : Type} [DecidableEq κ] (k : κ)
    (l : List (κ × β)) : lookupKey k (eraseKey k l) = none := by
  induction l with
  | nil => rfl
  | cons p rest ih =>
    obtain ⟨a, b⟩ := p
    by_cases h : a = k
    · subst h
      simpa [eraseKey] using ih
    · have h' : k ≠ a := fun he => h he.symm
      simp only [eraseKey, List.filter_cons] at ih ⊢
      simp only [h, decide_not, decide_False]
      simpa [lookupKey_cons, h'] using ih

theorem lookupKey_mem {κ β : Type} [DecidableEq κ] (k : κ) (v : β)
    (l : List (κ × β)) (h : lookupKey k l = some v) : (k, v) ∈ l := by
  induction l with
  | nil => simp [lookupKey] at h
  | cons p rest ih =>
    obtain ⟨a, b⟩ := p
    rw [lookupKey_cons] at h
    by_cases he : k = a
    · rw [if_pos he] at h
      subst he
      cases h
      exact List.mem_cons_self _ _
    · rw [if_neg he] at h
      exact List.mem_cons_of_mem _ (ih h)

theorem mem_lookupKey_nodup {κ β : Type} [DecidableEq κ] (k : κ) (v : β)
    (l : List (κ × β)) (hnd : (l.map Prod.fst).Nodup) (h : (k, v) ∈ l) :
    lookupKey k l = some v := by
  induction l with
  | nil => cases h
  | cons p rest ih =>
    obtain ⟨a, b⟩ := p
    rw [List.map_cons, List.nodup_cons] at hnd
    rcases List.mem_cons.mp h with h1 | h1
    · cases h1
      exact lookupKey_cons_self _ _ _
    · have hka : k ≠ a := by
        intro he
        subst he
        exact hnd.1 (List.mem_map.mpr ⟨(k, v), h1, rfl⟩)
      rw [lookupKey_cons, if_neg hka]
      exact ih hnd.2 h1

theorem updateKey_not_mem {κ β : Type} [DecidableEq κ] (k : κ) (v : β)
    (l : List (κ × β)) (h : k ∉ l.map Prod.fst) : updateKey k v l = l := by
  induction l with
  | nil => rfl
  | cons p rest ih =>
    obtain ⟨a, b⟩ := p
    rw [List.map_cons] at h
    have hak : a ≠ k := fun he => h (List.mem_cons.mpr (Or.inl he.symm))
    simp only [updateKey, if_neg hak]
    rw [ih (fun hm => h (List.mem_cons.mpr (Or.inr hm)))]

theorem lookupKey_new_states (h : XorName) (holders : List XorName) :
    lookupKey h (holders.map (fun x => (x, RpcState.Sent))) =
      if h ∈ holders then some RpcState.Sent else none := by
  induction holders with
  | nil => simp
  | cons a rest ih =>
    rw [List.map_cons, lookupKey_cons]
    by_cases he : h = a
    · simp [he]
    · simp only [if_neg he, ih, List.mem_cons]
      by_cases hm : h ∈ rest
      · simp [hm]
      · simp [hm, he]

theorem new_op_keys (holders : List XorName) :
    ((holders.map (fun x => (x, RpcState.Sent))).map Prod.fst) = holders := by
  induction holders with
  | nil => rfl
  | cons a rest ih => simp only [List.map_cons, ih]

theorem concluded_iff_forall (op : IDataOp) :
    op.concluded = true ↔ ∀ p ∈ op.rpc_states, p.2 ≠ RpcState.Sent := by
  unfold IDataOp.concluded
  rw [Bool.not_eq_true']
  rw [List.any_eq_false]
  constructor
  · intro hh p hp
    have := hh p hp
    simpa using this
  · intro hh p hp
    simpa using hh p hp

theorem concluded_false_of_sent (op : IDataOp) (h0 : XorName)
    (hs : lookupKey h0 op.rpc_states = some RpcState.Sent) :
    op.concluded = false := by
  have hmem := lookupKey_mem _ _ _ hs
  rcases hb : op.concluded with _ | _
  · rfl
  · exact absurd rfl ((concluded_iff_forall op).mp hb (h0, RpcState.Sent) hmem)

theorem concluded_true_of_no_sent (op : IDataOp)
    (hnd : (op.rpc_states.map Prod.fst).Nodup)
    (h : ∀ x, lookupKey x op.rpc_states ≠ some RpcState.Sent) :
    op.concluded = true := by
  rw [concluded_iff_forall]
  intro p hp hps
  exact h p.1 (by
    have := mem_lookupKey_nodup p.1 p.2 op.rpc_states hnd hp
    rw [hps] at this
    exact this)

theorem err_isSome_eq_is_err {α : Type} (r : NdResult α) :
    r.err.isSome = r.is_err := by
  cases r <;> rfl

theorem is_any_actioned_new (c : PublicId) (r : IDataRequest)
    (holders : List XorName) : (IDataOp.new c r holders).is_any_actioned = false := by
  induction holders with
  | nil => rfl
  | cons a rest ih =>
    simp only [IDataOp.new, IDataOp.is_any_actioned, List.map_cons, List.any_cons] at ih ⊢
    simp [ih]

theorem any_actioned_update_true (c : PublicId) (r : IDataRequest)
    (x : XorName) (e : Option NdError) (l : List (XorName × RpcState))
    (h : (lookupKey x l).isSome) :
    IDataOp.is_any_actioned ⟨c, r, updateKey x (RpcState.Actioned e) l⟩ = true := by
  induction l with
  | nil => simp [lookupKey] at h
  | cons p rest ih =>
    obtain ⟨a, b⟩ := p
    by_cases hax : a = x
    · subst hax
      simp only [updateKey, if_pos rfl]
      simp [IDataOp.is_any_actioned]
    · have hx2 : (lookupKey x rest).isSome := by
        rw [lookupKey_cons, if_neg (fun he => hax he.symm)] at h
        exact h
      have hi := ih hx2
      simp only [updateKey, if_neg hax]
      simp only [IDataOp.is_any_actioned, List.any_cons, Bool.or_eq_true] at hi ⊢
      exact Or.inr hi

theorem any_actioned_update_preserve (c : PublicId) (r : IDataRequest)
    (x : XorName) (e : Option NdError) (l : List (XorName × RpcState))
    (h : IDataOp.is_any_actioned ⟨c, r, l⟩ = true) :
    IDataOp.is_any_actioned ⟨c, r, updateKey x (RpcState.Actioned e) l⟩ = true := by
  induction l with
  | nil => simp [IDataOp.is_any_actioned] at h
  | cons p rest ih =>
    obtain ⟨a, b⟩ := p
    simp only [IDataOp.is_any_actioned, List.any_cons, Bool.or_eq_true] at h
    by_cases hax : a = x
    · subst hax
      simp only [updateKey, if_pos rfl]
      simp [IDataOp.is_any_actioned]
    · simp only [updateKey, if_neg hax]
      simp only [IDataOp.is_any_actioned, List.any_cons, Bool.or_eq_true]
      rcases h with h | h
      · exact Or.inl h
      · exact Or.inr (by
          have := ih h
          simpa [IDataOp.is_any_actioned] using this)

theorem errlen_update (c : PublicId) (r : IDataRequest) (x : XorName)
    (e : Option NdError) (l : List (XorName × RpcState))
    (hnd : (l.map Prod.fst).Nodup)
    (hx : lookupKey x l = some RpcState.Sent) :
    (IDataOp.get_any_errors ⟨c, r, updateKey x (RpcState.Actioned e) l⟩).length =
      (IDataOp.get_any_errors ⟨c, r, l⟩).length + (if e.isSome then 1 else 0) := by
  induction l with
  | nil => simp [lookupKey] at hx
  | cons p rest ih =>
    obtain ⟨a, b⟩ := p
    rw [List.map_cons, List.nodup_cons] at hnd
    by_cases hax : a = x
    · subst hax
      have hb : b = RpcState.Sent := by
        rw [lookupKey_cons_self] at hx
        cases hx
        rfl
      subst hb
      have hnm : a ∉ rest.map Prod.fst := hnd.1
      simp only [updateKey, if_pos rfl, updateKey_not_mem a (RpcState.Actioned e) rest hnm]
      simp only [IDataOp.get_any_errors, List.filterMap_cons]
      cases e with
      | none => simp
      | some er => simp
    · have hx2 : lookupKey x rest = some RpcState.Sent := by
        rw [lookupKey_cons, if_neg (fun he => hax he.symm)] at hx
        exact hx
      have hi := ih hnd.2 hx2
      simp only [updateKey, if_neg hax]
      simp only [IDataOp.get_any_errors, List.filterMap_cons] at hi ⊢
      cases hbm : (match (a, b).2 with
        | RpcState.Actioned (some er) => some ((a, b).1, er)
        | _ => none : Option (XorName × NdError)) with
      | none => simpa [hbm] using hi
      | some q =>
        simp only [hbm, List.length_cons]
        generalize (if e.isSome = true then 1 else 0) = ind at hi ⊢
        omega

theorem remove_concluded_metadata (s : HState) (mid : MessageId) :
    (s.remove_idata_op_if_concluded mid).1.metadata = s.metadata := by
  unfold HState.remove_idata_op_if_concluded
  cases h : lookupKey mid s.idata_ops with
  | none => rfl
  | some op =>
    by_cases hc : op.concluded
    · simp [hc]
    · simp [hc]

theorem delete_resp_err_state (s : HState) (addr : IDataAddress)
    (sender : XorName) (e : NdError) (mid : MessageId) :
    s.handle_delete_unpub_idata_resp addr sender (NdResult.error e) mid =
      s.conclude_delete_unpub addr mid := rfl

theorem delete_resp_ok_state (s : HState) (addr : IDataAddress)
    (sender : XorName) (mid : MessageId) (m : ChunkMetadata)
    (hm : lookupKey addr s.metadata = some m) (hs : sender ∈ m.holders) :
    s.handle_delete_unpub_idata_resp addr sender (NdResult.ok ()) mid =
      HState.conclude_delete_unpub
        (if (setRemove sender m.holders).isEmpty then
          { s with metadata := eraseKey addr s.metadata }
        else
          { s with metadata := setKey addr ⟨setRemove sender m.holders, m.owner⟩ s.metadata })
        addr mid := by
  have hcont : m.holders.contains sender = true := by
    exact List.elem_iff.mpr hs
  unfold HState.handle_delete_unpub_idata_resp
  rw [hm]
  simp only [hcont, if_true]

theorem conclude_shape (s : HState) (addr : IDataAddress) (mid : MessageId)
    (op : IDataOp) (hop : lookupKey mid s.idata_ops = some op) :
    (op.concluded = false → s.conclude_delete_unpub addr mid = some (s, none)) ∧
    (op.concluded = true → op.get_any_errors.length ≤ 1 →
      s.conclude_delete_unpub addr mid =
        some ({ s with idata_ops := eraseKey mid s.idata_ops },
          some (Action.RespondToClientHandlers addr.name
            (Rpc.response op.client
              (Response.Mutation
                (match op.get_any_errors.head? with
                | some pe => NdResult.error pe.2
                | none => NdResult.ok ())) mid none)))) := by
  constructor
  · intro hc
    unfold HState.conclude_delete_unpub HState.remove_idata_op_if_concluded
    rw [hop]
    simp [hc]
  · intro hc herr
    unfold HState.conclude_delete_unpub HState.remove_idata_op_if_concluded
    rw [hop]
    simp [hc, herr]

theorem put_step (s : HState) (mid : MessageId) (op : IDataOp) (data : IData)
    (k : PublicKey) (x : XorName) (rv : NdResult Unit)
    (hso : s.idata_ops = [(mid, op)])
    (hreq : op.request = IDataRequest.Put data)
    (hk : own_key op.client = some k)
    (hx : lookupKey x op.rpc_states = some RpcState.Sent) :
    ∃ s4 a, s.handle_mutation_resp x rv mid = some (s4, a) ∧
      a.isSome = IDataOp.concluded ⟨op.client, IDataRequest.Put data,
        updateKey x (RpcState.Actioned rv.err) op.rpc_states⟩ ∧
      s4.idata_ops =
        (if IDataOp.concluded ⟨op.client, IDataRequest.Put data,
            updateKey x (RpcState.Actioned rv.err) op.rpc_states⟩ then
          ([] : List (MessageId × IDataOp))
        else [(mid, ⟨op.client, IDataRequest.Put data,
          updateKey x (RpcState.Actioned rv.err) op.rpc_states⟩)]) := by
  set op2 : IDataOp := ⟨op.client, IDataRequest.Put data,
    updateKey x (RpcState.Actioned rv.err) op.rpc_states⟩ with hop2def
  have hxs : (lookupKey x op.rpc_states).isSome = true := by rw [hx]; rfl
  have hset : op.set_to_actioned x rv.err = some op2 := by
    unfold IDataOp.set_to_actioned
    rw [if_pos hxs, hop2def, hreq]
  have homr : op.handle_mutation_resp x rv = some (op2, data.address) := by
    unfold IDataOp.handle_mutation_resp
    rw [hreq]
    simp only [hset]
    rfl
  have hoptype : op.op_type = OpType.Put := by
    unfold IDataOp.op_type
    rw [hreq]
  have hupd : updateKey mid op2 [(mid, op)] = [(mid, op2)] := by
    simp [updateKey]
  unfold HState.handle_mutation_resp
  rw [hso, lookupKey_cons_self]
  simp only [homr, hoptype, hupd, if_pos rfl]
  unfold HState.handle_put_idata_resp
  simp only [lookupKey_cons_self]
  have hcl : op2.client = op.client := rfl
  rw [hcl, hk]
  unfold HState.persist_and_conclude_put HState.remove_idata_op_if_concluded
  simp only [lookupKey_cons_self]
  by_cases hc : op2.concluded = true
  · simp only [hc, if_true]
    refine ⟨_, _, rfl, ?_, ?_⟩
    · simp [hc]
    · simp [hc, eraseKey]
  · rw [Bool.not_eq_true] at hc
    simp only [hc, Bool.false_eq_true, if_false]
    refine ⟨_, _, rfl, ?_, ?_⟩
    · simp [hc]
    · simp [hc]

theorem delete_resp_any (s : HState) (addr : IDataAddress) (x : XorName)
    (rv : NdResult Unit) (mid : MessageId)
    (hsome : (lookupKey mid s.idata_ops).isSome) :
    ∃ s1 : HState, s1.idata_ops = s.idata_ops ∧
      s.handle_delete_unpub_idata_resp addr x rv mid =
        s1.conclude_delete_unpub addr mid := by
  cases rv with
  | error e => exact ⟨s, rfl, delete_resp_err_state s addr x e mid⟩
  | ok u =>
    cases hm : lookupKey addr s.metadata with
    | none =>
      refine ⟨s, rfl, ?_⟩
      unfold HState.handle_delete_unpub_idata_resp
      rw [hm]
    | some metadata =>
      by_cases hcont : metadata.holders.contains x = true
      · have hmemx : x ∈ metadata.holders := List.elem_iff.mp hcont
        by_cases he : (setRemove x metadata.holders).isEmpty
        · refine ⟨{ s with metadata := eraseKey addr s.metadata }, rfl, ?_⟩
          unfold HState.handle_delete_unpub_idata_resp
          rw [hm]
          simp [hcont, hmemx, he]
        · refine ⟨{ s with
            metadata :=
              setKey addr ⟨setRemove x metadata.holders, metadata.owner⟩ s.metadata },
            rfl, ?_⟩
          unfold HState.handle_delete_unpub_idata_resp
          rw [hm]
          simp [hcont, hmemx, he]
      · have hnmx : x ∉ metadata.holders := fun hmem => hcont (List.elem_iff.mpr hmem)
        cases hop : lookupKey mid s.idata_ops with
        | none =>
          rw [hop] at hsome
          cases hsome
        | some o =>
          by_cases he : metadata.holders.isEmpty
          · refine ⟨{ s with metadata := eraseKey addr s.metadata }, rfl, ?_⟩
            unfold HState.handle_delete_unpub_idata_resp
            rw [hm]
            simp [hcont, hnmx, hop, he]
          · refine ⟨{ s with metadata := setKey addr metadata s.metadata }, rfl, ?_⟩
            unfold HState.handle_delete_unpub_idata_resp
            rw [hm]
            simp [hcont, hnmx, hop, he]

theorem delete_step (s : HState) (mid : MessageId) (op : IDataOp)
    (addrD : IDataAddress) (x : XorName) (rv : NdResult Unit)
    (hso : s.idata_ops = [(mid, op)])
    (hreq : op.request = IDataRequest.DeleteUnpub addrD)
    (hx : lookupKey x op.rpc_states = some RpcState.Sent)
    (herr2 : (IDataOp.get_any_errors ⟨op.client, IDataRequest.DeleteUnpub addrD,
      updateKey x (RpcState.Actioned rv.err) op.rpc_states⟩).length ≤ 1) :
    ∃ s4 a, s.handle_mutation_resp x rv mid = some (s4, a) ∧
      a.isSome = IDataOp.concluded ⟨op.client, IDataRequest.DeleteUnpub addrD,
        updateKey x (RpcState.Actioned rv.err) op.rpc_states⟩ ∧
      s4.idata_ops =
        (if IDataOp.concluded ⟨op.client, IDataRequest.DeleteUnpub addrD,
            updateKey x (RpcState.Actioned rv.err) op.rpc_states⟩ then
          ([] : List (MessageId × IDataOp))
        else [(mid, ⟨op.client, IDataRequest.DeleteUnpub addrD,
          updateKey x (RpcState.Actioned rv.err) op.rpc_states⟩)]) := by
  set op2 : IDataOp := ⟨op.client, IDataRequest.DeleteUnpub addrD,
    updateKey x (RpcState.Actioned rv.err) op.rpc_states⟩ with hop2def
  have hxs : (lookupKey x op.rpc_states).isSome = true := by rw [hx]; rfl
  have hset : op.set_to_actioned x rv.err = some op2 := by
    unfold IDataOp.set_to_actioned
    rw [if_pos hxs, hop2def, hreq]
  have homr : op.handle_mutation_resp x rv = some (op2, addrD) := by
    unfold IDataOp.handle_mutation_resp
    rw [hreq]
    simp only [hset]
    rfl
  have hoptype : op.op_type = OpType.Delete := by
    unfold IDataOp.op_type
    rw [hreq]
  have hupd : updateKey mid op2 [(mid, op)] = [(mid, op2)] := by
    simp [updateKey]
  unfold HState.handle_mutation_resp
  rw [hso, lookupKey_cons_self]
  simp only [homr, hoptype, hupd]
  rw [if_neg (by decide : ¬(OpType.Delete = OpType.Put))]
  obtain ⟨s1, hs1, heq⟩ := delete_resp_any
    { s with idata_ops := [(mid, op2)] } addrD x rv mid (by simp)
  rw [heq]
  have hlook1 : lookupKey mid s1.idata_ops = some op2 := by
    rw [hs1]
    exact lookupKey_cons_self _ _ _
  have hsh := conclude_shape s1 addrD mid op2 hlook1
  by_cases hc : op2.concluded = true
  · rw [hsh.2 hc herr2]
    refine ⟨_, _, rfl, ?_, ?_⟩
    · simp [hc]
    · rw [hc, if_pos rfl]
      show eraseKey mid s1.idata_ops = []
      rw [hs1]
      simp [eraseKey]
  · rw [Bool.not_eq_true] at hc
    rw [hsh.1 hc]
    refine ⟨_, _, rfl, ?_, ?_⟩
    · simp [hc]
    · rw [hc]
      simp only [Bool.false_eq_true, if_false]
      rw [hs1]

theorem new_op_errors (c : PublicId) (r : IDataRequest) (holders : List XorName) :
    (IDataOp.new c r holders).get_any_errors = [] := by
  induction holders with
  | nil => rfl
  | cons a rest ih =>
    simp only [IDataOp.new, IDataOp.get_any_errors, List.map_cons,
      List.filterMap_cons] at ih ⊢
    exact ih

theorem get_step (s : HState) (mid : MessageId) (op : IDataOp)
    (addr : IDataAddress) (x : XorName) (rv : NdResult IData)
    (hso : s.idata_ops = [(mid, op)])
    (hreq : op.request = IDataRequest.Get addr)
    (hx : (lookupKey x op.rpc_states).isSome = true) :
    (s.handle_get_idata_resp x rv mid).2 =
      (if op.is_any_actioned then none
       else some (Action.RespondToClientHandlers addr.name
         (Rpc.response op.client (Response.GetIData rv) mid none))) ∧
    (s.handle_get_idata_resp x rv mid).1.idata_ops =
      (if IDataOp.concluded ⟨op.client, IDataRequest.Get addr,
          updateKey x (RpcState.Actioned rv.err) op.rpc_states⟩ then
        ([] : List (MessageId × IDataOp))
      else [(mid, ⟨op.client, IDataRequest.Get addr,
        updateKey x (RpcState.Actioned rv.err) op.rpc_states⟩)]) := by
  set op2 : IDataOp := ⟨op.client, IDataRequest.Get addr,
    updateKey x (RpcState.Actioned rv.err) op.rpc_states⟩ with hop2def
  have hset : op.set_to_actioned x rv.err = some op2 := by
    unfold IDataOp.set_to_actioned
    rw [if_pos hx, hop2def, hreq]
  have hopr : op.handle_get_idata_resp x rv mid =
      (op2,
        if op.is_any_actioned then none
        else some (Action.RespondToClientHandlers addr.name
          (Rpc.response op.client (Response.GetIData rv) mid none))) := by
    unfold IDataOp.handle_get_idata_resp
    rw [hreq]
    simp only [hset]
  have hupd : updateKey mid op2 [(mid, op)] = [(mid, op2)] := by
    simp [updateKey]
  unfold HState.handle_get_idata_resp
  rw [hso, lookupKey_cons_self]
  simp only [hopr, hupd]
  unfold HState.remove_idata_op_if_concluded
  simp only [lookupKey_cons_self]
  by_cases hc : op2.concluded = true
  · simp only [hc, if_true]
    exact ⟨by simp, by simp [eraseKey]⟩
  · rw [Bool.not_eq_true] at hc
    simp only [hc, Bool.false_eq_true, if_false]
    exact ⟨by simp, by simp⟩

theorem get_step_missing (s : HState) (mid : MessageId) (op : IDataOp)
    (addr : IDataAddress) (x : XorName) (rv : NdResult IData)
    (hso : s.idata_ops = [(mid, op)])
    (hreq : op.request = IDataRequest.Get addr)
    (hxn : (lookupKey x op.rpc_states).isSome = false) :
    (s.handle_get_idata_resp x rv mid).2 = none ∧
    (s.handle_get_idata_resp x rv mid).1.idata_ops =
      (if op.concluded then ([] : List (MessageId × IDataOp)) else [(mid, op)]) := by
  have hset : op.set_to_actioned x rv.err = none := by
    unfold IDataOp.set_to_actioned
    rw [hxn]
    rfl
  have hopr : op.handle_get_idata_resp x rv mid = (op, none) := by
    unfold IDataOp.handle_get_idata_resp
    rw [hreq]
    simp only [hset]
  have hupd : updateKey mid op [(mid, op)] = [(mid, op)] := by
    simp [updateKey]
  unfold HState.handle_get_idata_resp
  rw [hso, lookupKey_cons_self]
  simp only [hopr, hupd]
  unfold HState.remove_idata_op_if_concluded
  simp only [lookupKey_cons_self]
  by_cases hc : op.concluded = true
  · simp only [hc, if_true]
    exact ⟨by simp, by simp [eraseKey]⟩
  · rw [Bool.not_eq_true] at hc
    simp only [hc, Bool.false_eq_true, if_false]
    exact ⟨by simp, by simp⟩

theorem get_rest_loop (mid : MessageId) (addr : IDataAddress) :
    ∀ (resps : List (XorName × NdResult IData)) (s : HState),
    (s.idata_ops = [] ∨ ∃ op2 : IDataOp, s.idata_ops = [(mid, op2)] ∧
      op2.is_any_actioned = true ∧ op2.request = IDataRequest.Get addr) →
    (run_get_resps mid s resps).2 = 0 := by
  intro resps
  induction resps with
  | nil =>
    intro s _
    rfl
  | cons r rs ih =>
    intro s hP
    obtain ⟨x, rv⟩ := r
    rcases hP with hP | ⟨op2, hso, hany, hreq⟩
    · have hstep : s.handle_get_idata_resp x rv mid = (s, none) := by
        unfold HState.handle_get_idata_resp
        rw [hP]
        rfl
      simp only [run_get_resps]
      rw [hstep]
      simpa using ih s (Or.inl hP)
    · cases hxs : (lookupKey x op2.rpc_states).isSome with
      | true =>
        have hstep := get_step s mid op2 addr x rv hso hreq hxs
        rw [hany, if_pos rfl] at hstep
        simp only [run_get_resps]
        rw [hstep.1]
        have hPnext : (s.handle_get_idata_resp x rv mid).1.idata_ops = [] ∨
            ∃ op3 : IDataOp,
              (s.handle_get_idata_resp x rv mid).1.idata_ops = [(mid, op3)] ∧
              op3.is_any_actioned = true ∧ op3.request = IDataRequest.Get addr := by
          rw [hstep.2]
          by_cases hc : IDataOp.concluded ⟨op2.client, IDataRequest.Get addr,
              updateKey x (RpcState.Actioned rv.err) op2.rpc_states⟩ = true
          · rw [hc, if_pos rfl]
            exact Or.inl rfl
          · rw [Bool.not_eq_true] at hc
            rw [hc]
            simp only [Bool.false_eq_true, if_false]
            refine Or.inr ⟨_, rfl, ?_, rfl⟩
            exact any_actioned_update_true op2.client (IDataRequest.Get addr) x
              rv.err op2.rpc_states hxs
        simpa using ih (s.handle_get_idata_resp x rv mid).1 hPnext
      | false =>
        have hstep := get_step_missing s mid op2 addr x rv hso hreq hxs
        simp only [run_get_resps]
        rw [hstep.1]
        have hPnext : (s.handle_get_idata_resp x rv mid).1.idata_ops = [] ∨
            ∃ op3 : IDataOp,
              (s.handle_get_idata_resp x rv mid).1.idata_ops = [(mid, op3)] ∧
              op3.is_any_actioned = true ∧ op3.request = IDataRequest.Get addr := by
          rw [hstep.2]
          by_cases hc : op2.concluded = true
          · rw [hc, if_pos rfl]
            exact Or.inl rfl
          · rw [Bool.not_eq_true] at hc
            rw [hc]
            simp only [Bool.false_eq_true, if_false]
            exact Or.inr ⟨op2, rfl, hany, hreq⟩
        simpa using ih (s.handle_get_idata_resp x rv mid).1 hPnext

theorem run_get_loop (mid : MessageId) (addr : IDataAddress) (s : HState)
    (op : IDataOp) (x : XorName) (rv : NdResult IData)
    (rs : List (XorName × NdResult IData))
    (hso : s.idata_ops = [(mid, op)])
    (hreq : op.request = IDataRequest.Get addr)
    (hany : op.is_any_actioned = false)
    (hx : (lookupKey x op.rpc_states).isSome = true) :
    (run_get_resps mid s ((x, rv) :: rs)).2 = 1 := by
  have hstep := get_step s mid op addr x rv hso hreq hx
  rw [hany] at hstep
  simp only [Bool.false_eq_true, if_false] at hstep
  have hPnext : (s.handle_get_idata_resp x rv mid).1.idata_ops = [] ∨
      ∃ op3 : IDataOp,
        (s.handle_get_idata_resp x rv mid).1.idata_ops = [(mid, op3)] ∧
        op3.is_any_actioned = true ∧ op3.request = IDataRequest.Get addr := by
    rw [hstep.2]
    by_cases hc : IDataOp.concluded ⟨op.client, IDataRequest.Get addr,
        updateKey x (RpcState.Actioned rv.err) op.rpc_states⟩ = true
    · rw [hc, if_pos rfl]
      exact Or.inl rfl
    · rw [Bool.not_eq_true] at hc
      rw [hc]
      simp only [Bool.false_eq_true, if_false]
      refine Or.inr ⟨_, rfl, ?_, rfl⟩
      exact any_actioned_update_true op.client (IDataRequest.Get addr) x
        rv.err op.rpc_states hx
  have hrest := get_rest_loop mid addr rs (s.handle_get_idata_resp x rv mid).1 hPnext
  simp only [run_get_resps]
  rw [hstep.1]
  simpa using hrest

theorem run_mutation_cons (mid : MessageId) (s : HState)
    (r : XorName × NdResult Unit) (rs : List (XorName × NdResult Unit)) :
    run_mutation_resps mid s (r :: rs) =
      (match s.handle_mutation_resp r.1 r.2 mid with
      | none => none
      | some (s2, a) =>
        match run_mutation_resps mid s2 rs with
        | none => none
        | some (sf, n) => some (sf, (if a.isSome = true then 1 else 0) + n)) := rfl

theorem run_put_loop (mid : MessageId) (data : IData) (k : PublicKey) :
    ∀ (resps : List (XorName × NdResult Unit)) (s : HState) (op : IDataOp),
    s.idata_ops = [(mid, op)] →
    op.request = IDataRequest.Put data →
    own_key op.client = some k →
    (op.rpc_states.map Prod.fst).Nodup →
    (resps.map Prod.fst).Nodup →
    (∀ h, lookupKey h op.rpc_states = some RpcState.Sent ↔ h ∈ resps.map Prod.fst) →
    resps ≠ [] →
    ∃ sf, run_mutation_resps mid s resps = some (sf, 1) := by
  intro resps
  induction resps with
  | nil =>
    intro s op _ _ _ _ _ _ hne
    exact absurd rfl hne
  | cons r rs ih =>
    intro s op hso hreq hk hndk hnds hinv _
    obtain ⟨x, rv⟩ := r
    have hx : lookupKey x op.rpc_states = some RpcState.Sent :=
      (hinv x).mpr (by simp)
    obtain ⟨s4, a, hstep, hais, hs4⟩ := put_step s mid op data k x rv hso hreq hk hx
    have hxnotrs : x ∉ rs.map Prod.fst := by
      rw [List.map_cons, List.nodup_cons] at hnds
      exact hnds.1
    have hinv2 : ∀ h,
        lookupKey h (updateKey x (RpcState.Actioned rv.err) op.rpc_states) =
          some RpcState.Sent ↔ h ∈ rs.map Prod.fst := by
      intro h
      by_cases hhx : h = x
      · subst hhx
        rw [lookupKey_update_self _ _ _ (by rw [hx]; rfl)]
        constructor
        · intro hcontr
          cases hcontr
        · intro hmem
          exact absurd hmem hxnotrs
      · rw [lookupKey_update_ne _ _ _ _ hhx, hinv h]
        simp [hhx]
    have hndk2 : ((updateKey x (RpcState.Actioned rv.err) op.rpc_states).map
        Prod.fst).Nodup := by
      rw [updateKey_keys]
      exact hndk
    cases rs with
    | nil =>
      have hconc : IDataOp.concluded ⟨op.client, IDataRequest.Put data,
          updateKey x (RpcState.Actioned rv.err) op.rpc_states⟩ = true := by
        apply concluded_true_of_no_sent _ hndk2
        intro h hcontr
        exact absurd ((hinv2 h).mp hcontr) (by simp)
      refine ⟨s4, ?_⟩
      rw [run_mutation_cons]
      simp [run_mutation_resps, hstep, hais, hconc]
    | cons y ys =>
      have hsent2 : lookupKey y.1 (updateKey x (RpcState.Actioned rv.err)
          op.rpc_states) = some RpcState.Sent :=
        (hinv2 y.1).mpr (by simp)
      have hconc : IDataOp.concluded ⟨op.client, IDataRequest.Put data,
          updateKey x (RpcState.Actioned rv.err) op.rpc_states⟩ = false :=
        concluded_false_of_sent _ y.1 hsent2
      rw [hconc] at hs4 hais
      simp only [Bool.false_eq_true, if_false] at hs4
      have hnds2 : ((y :: ys).map Prod.fst).Nodup := by
        rw [List.map_cons, List.nodup_cons] at hnds
        exact hnds.2
      obtain ⟨sf, hrec⟩ := ih s4
        ⟨op.client, IDataRequest.Put data,
          updateKey x (RpcState.Actioned rv.err) op.rpc_states⟩
        hs4 rfl hk hndk2 hnds2 hinv2 (by simp)
      refine ⟨sf, ?_⟩
      rw [run_mutation_cons]
      have hna : a.isSome = false := hais
      simp [hstep, hrec, hna]

theorem run_delete_loop (mid : MessageId) (addrD : IDataAddress) :
    ∀ (resps : List (XorName × NdResult Unit)) (s : HState) (op : IDataOp),
    s.idata_ops = [(mid, op)] →
    op.request = IDataRequest.DeleteUnpub addrD →
    (op.rpc_states.map Prod.fst).Nodup →
    (resps.map Prod.fst).Nodup →
    (∀ h, lookupKey h op.rpc_states = some RpcState.Sent ↔ h ∈ resps.map Prod.fst) →
    op.get_any_errors.length +
      (resps.filter (fun r => r.2.is_err)).length ≤ 1 →
    resps ≠ [] →
    ∃ sf, run_mutation_resps mid s resps = some (sf, 1) := by
  intro resps
  induction resps with
  | nil =>
    intro s op _ _ _ _ _ _ hne
    exact absurd rfl hne
  | cons r rs ih =>
    intro s op hso hreq hndk hnds hinv herrs _
    obtain ⟨x, rv⟩ := r
    have hx : lookupKey x op.rpc_states = some RpcState.Sent :=
      (hinv x).mpr (by simp)
    have herrup : (IDataOp.get_any_errors ⟨op.client, IDataRequest.DeleteUnpub addrD,
        updateKey x (RpcState.Actioned rv.err) op.rpc_states⟩).length =
        (IDataOp.get_any_errors ⟨op.client, IDataRequest.DeleteUnpub addrD,
          op.rpc_states⟩).length + (if rv.err.isSome then 1 else 0) :=
      errlen_update op.client (IDataRequest.DeleteUnpub addrD) x rv.err
        op.rpc_states hndk hx
    have herrsame : (IDataOp.get_any_errors ⟨op.client,
        IDataRequest.DeleteUnpub addrD, op.rpc_states⟩).length =
        op.get_any_errors.length := rfl
    have hfilter : (((x, rv) :: rs).filter (fun r => r.2.is_err)).length =
        (if rv.err.isSome then 1 else 0) +
          (rs.filter (fun r => r.2.is_err)).length := by
      rw [List.filter_cons]
      cases rv with
      | ok u => simp [NdResult.is_err, NdResult.err]
      | error e => simp [NdResult.is_err, NdResult.err, Nat.add_comm]
    have herr2 : (IDataOp.get_any_errors ⟨op.client, IDataRequest.DeleteUnpub addrD,
        updateKey x (RpcState.Actioned rv.err) op.rpc_states⟩).length +
        (rs.filter (fun r => r.2.is_err)).length ≤ 1 := by
      rw [herrup, herrsame]
      rw [hfilter] at herrs
      omega
    obtain ⟨s4, a, hstep, hais, hs4⟩ := delete_step s mid op addrD x rv hso hreq hx
      (le_trans (Nat.le_add_right _ _) herr2)
    have hxnotrs : x ∉ rs.map Prod.fst := by
      rw [List.map_cons, List.nodup_cons] at hnds
      exact hnds.1
    have hinv2 : ∀ h,
        lookupKey h (updateKey x (RpcState.Actioned rv.err) op.rpc_states) =
          some RpcState.Sent ↔ h ∈ rs.map Prod.fst := by
      intro h
      by_cases hhx : h = x
      · subst hhx
        rw [lookupKey_update_self _ _ _ (by rw [hx]; rfl)]
        constructor
        · intro hcontr
          cases hcontr
        · intro hmem
          exact absurd hmem hxnotrs
      · rw [lookupKey_update_ne _ _ _ _ hhx, hinv h]
        simp [hhx]
    have hndk2 : ((updateKey x (RpcState.Actioned rv.err) op.rpc_states).map
        Prod.fst).Nodup := by
      rw [updateKey_keys]
      exact hndk
    cases rs with
    | nil =>
      have hconc : IDataOp.concluded ⟨op.client, IDataRequest.DeleteUnpub addrD,
          updateKey x (RpcState.Actioned rv.err) op.rpc_states⟩ = true := by
        apply concluded_true_of_no_sent _ hndk2
        intro h hcontr
        exact absurd ((hinv2 h).mp hcontr) (by simp)
      refine ⟨s4, ?_⟩
      rw [run_mutation_cons]
      simp [run_mutation_resps, hstep, hais, hconc]
    | cons y ys =>
      have hsent2 : lookupKey y.1 (updateKey x (RpcState.Actioned rv.err)
          op.rpc_states) = some RpcState.Sent :=
        (hinv2 y.1).mpr (by simp)
      have hconc : IDataOp.concluded ⟨op.client, IDataRequest.DeleteUnpub addrD,
          updateKey x (RpcState.Actioned rv.err) op.rpc_states⟩ = false :=
        concluded_false_of_sent _ y.1 hsent2
      rw [hconc] at hs4 hais
      simp only [Bool.false_eq_true, if_false] at hs4
      have hnds2 : ((y :: ys).map Prod.fst).Nodup := by
        rw [List.map_cons, List.nodup_cons] at hnds
        exact hnds.2
      obtain ⟨sf, hrec⟩ := ih s4
        ⟨op.client, IDataRequest.DeleteUnpub addrD,
          updateKey x (RpcState.Actioned rv.err) op.rpc_states⟩
        hs4 rfl hndk2 hnds2 hinv2 herr2 (by simp)
      refine ⟨sf, ?_⟩
      rw [run_mutation_cons]
      have hna : a.isSome = false := hais
      simp [hstep, hrec, hna]

/-- Claim C4: for a GET operation and a response from an expected holder,
the action is the single client-visible GetIData response exactly when no
holder was Actioned before (the first response wins; later responses emit
nothing); the responding holder state becomes `Actioned` in the stored op;
and the op is removed exactly when no holder remains `Sent`. -/
theorem C4_theorem (s : HState) (sender : XorName) (result : NdResult IData)
    (mid : MessageId) (op : IDataOp) (addr : IDataAddress)
    (hop : lookupKey mid s.idata_ops = some op)
    (hreq : op.request = IDataRequest.Get addr)
    (hsender : (lookupKey sender op.rpc_states).isSome) :
    ((s.handle_get_idata_resp sender result mid).2 =
      if op.is_any_actioned then none
      else some (Action.RespondToClientHandlers addr.name
        (Rpc.response op.client (Response.GetIData result) mid none))) ∧
    (IDataOp.concluded
        ⟨op.client, IDataRequest.Get addr,
          updateKey sender (RpcState.Actioned result.err) op.rpc_states⟩ = false →
      lookupKey mid (s.handle_get_idata_resp sender result mid).1.idata_ops =
        some ⟨op.client, IDataRequest.Get addr,
          updateKey sender (RpcState.Actioned result.err) op.rpc_states⟩) ∧
    (IDataOp.concluded
        ⟨op.client, IDataRequest.Get addr,
          updateKey sender (RpcState.Actioned result.err) op.rpc_states⟩ = true →
      lookupKey mid (s.handle_get_idata_resp sender result mid).1.idata_ops =
        none) := by
  have hset : op.set_to_actioned sender result.err =
      some ⟨op.client, IDataRequest.Get addr,
        updateKey sender (RpcState.Actioned result.err) op.rpc_states⟩ := by
    unfold IDataOp.set_to_actioned
    rw [if_pos hsender, hreq]
  have hopr : op.handle_get_idata_resp sender result mid =
      (⟨op.client, IDataRequest.Get addr,
          updateKey sender (RpcState.Actioned result.err) op.rpc_states⟩,
        if op.is_any_actioned then none
        else some (Action.RespondToClientHandlers addr.name
          (Rpc.response op.client (Response.GetIData result) mid none))) := by
    unfold IDataOp.handle_get_idata_resp
    rw [hreq]
    simp only [hset]
  have hl2 : lookupKey mid
      (updateKey mid
        (⟨op.client, IDataRequest.Get addr,
          updateKey sender (RpcState.Actioned result.err) op.rpc_states⟩ : IDataOp)
        s.idata_ops) =
      some ⟨op.client, IDataRequest.Get addr,
        updateKey sender (RpcState.Actioned result.err) op.rpc_states⟩ :=
    lookupKey_update_self mid _ s.idata_ops (by rw [hop]; rfl)
  have hmain : s.handle_get_idata_resp sender result mid =
      ((HState.remove_idata_op_if_concluded
          { s with
            idata_ops := updateKey mid
              (⟨op.client, IDataRequest.Get addr,
                updateKey sender (RpcState.Actioned result.err) op.rpc_states⟩ : IDataOp)
              s.idata_ops } mid).1,
        if op.is_any_actioned then none
        else some (Action.RespondToClientHandlers addr.name
          (Rpc.response op.client (Response.GetIData result) mid none))) := by
    unfold HState.handle_get_idata_resp
    rw [hop]
    simp only [hopr]
  refine ⟨?_, ?_, ?_⟩
  · rw [hmain]
  · intro hc
    rw [hmain]
    unfold HState.remove_idata_op_if_concluded
    simp only [hl2, hc]
    exact hl2
  · intro hc
    rw [hmain]
    unfold HState.remove_idata_op_if_concluded
    simp only [hl2, hc, if_true]
    exact lookupKey_erase_self mid _

/-- Claim C4, witness: a three-holder GET op; holder 2 responds first (action
emitted, op kept), then the same state with holder 2 Actioned shows a second
response from holder 1 is silent. -/
theorem C4_theorem_witness :
    ((HState.handle_get_idata_resp
        ⟨50, [(2000, IDataOp.new (PublicId.client 7 77)
          (IDataRequest.Get ⟨100, IDataKind.Pub⟩) [1, 2, 3])], []⟩
        2 (NdResult.ok ⟨⟨100, IDataKind.Pub⟩, 5⟩) 2000).2 =
      some (Action.RespondToClientHandlers 100
        (Rpc.response (PublicId.client 7 77)
          (Response.GetIData (NdResult.ok ⟨⟨100, IDataKind.Pub⟩, 5⟩)) 2000 none))) ∧
    ((HState.handle_get_idata_resp
        ⟨50, [(2000, ⟨PublicId.client 7 77, IDataRequest.Get ⟨100, IDataKind.Pub⟩,
          [(1, RpcState.Sent), (2, RpcState.Actioned none), (3, RpcState.Sent)]⟩)], []⟩
        1 (NdResult.ok ⟨⟨100, IDataKind.Pub⟩, 5⟩) 2000).2 = none) := by
  constructor
  · have h := (C4_theorem
      ⟨50, [(2000, IDataOp.new (PublicId.client 7 77)
        (IDataRequest.Get ⟨100, IDataKind.Pub⟩) [1, 2, 3])], []⟩
      2 (NdResult.ok ⟨⟨100, IDataKind.Pub⟩, 5⟩) 2000
      (IDataOp.new (PublicId.client 7 77)
        (IDataRequest.Get ⟨100, IDataKind.Pub⟩) [1, 2, 3])
      ⟨100, IDataKind.Pub⟩ (by decide) (by decide) (by decide)).1
    rw [h]
    decide
  · have h := (C4_theorem
      ⟨50, [(2000, ⟨PublicId.client 7 77, IDataRequest.Get ⟨100, IDataKind.Pub⟩,
        [(1, RpcState.Sent), (2, RpcState.Actioned none), (3, RpcState.Sent)]⟩)], []⟩
      1 (NdResult.ok ⟨⟨100, IDataKind.Pub⟩, 5⟩) 2000
      ⟨PublicId.client 7 77, IDataRequest.Get ⟨100, IDataKind.Pub⟩,
        [(1, RpcState.Sent), (2, RpcState.Actioned none), (3, RpcState.Sent)]⟩
      ⟨100, IDataKind.Pub⟩ (by decide) (by decide) (by decide)).1
    rw [h]
    decide

/-- Claim C5, counterexample: a PUT operation whose requester is a node.  The
holder 1 delivers an Ok response, yet the handler persists nothing (the
metadata store stays empty, the sender is not inserted) and emits no action,
because `own_key(...)?` aborts `handle_put_idata_resp` early. -/
theorem C5_counterexample :
    (HState.handle_mutation_resp
        ⟨50, [(1000, IDataOp.new (PublicId.node 9)
          (IDataRequest.Put ⟨⟨100, IDataKind.Pub⟩, 5⟩) [1, 2, 3])], []⟩
        1 (NdResult.ok ()) 1000).map (fun p => (p.1.metadata, p.2)) =
      some ([], none) := by
  decide

/-- Claim C5 as amended: when the operation is still in the ledger and its
requester is a client or an app, the PUT-response handler inserts the sender
into the persisted holders (duplicate insertion included) and sets the owner
to the requester key; when the requester is a node, the handler returns early
with the state entirely unchanged, persisting nothing. -/
theorem C5_theorem (s : HState) (addr : IDataAddress) (sender : XorName)
    (mid : MessageId) (op : IDataOp) (k : PublicKey)
    (hop : lookupKey mid s.idata_ops = some op) :
    (own_key op.client = some k →
      (s.handle_put_idata_resp addr sender mid).1.metadata =
        setKey addr
          ⟨setInsert sender ((lookupKey addr s.metadata).getD ChunkMetadata.default).holders,
            some k⟩ s.metadata ∧
      sender ∈
        setInsert sender ((lookupKey addr s.metadata).getD ChunkMetadata.default).holders) ∧
    (own_key op.client = none →
      s.handle_put_idata_resp addr sender mid = (s, none)) := by
  have hpc : ∀ (md : ChunkMetadata),
      (HState.persist_and_conclude_put s addr mid md).1.metadata =
        setKey addr md s.metadata := by
    intro md
    unfold HState.persist_and_conclude_put
    have hrm := remove_concluded_metadata
      { s with metadata := setKey addr md s.metadata } mid
    cases hx : (HState.remove_idata_op_if_concluded
        { s with metadata := setKey addr md s.metadata } mid).2 with
    | none =>
      simp only [hx]
      rw [hrm]
    | some op2 =>
      simp only [hx]
      rw [hrm]
  constructor
  · intro hk
    refine ⟨?_, (mem_setInsert sender sender _).mpr (Or.inl rfl)⟩
    simp only [HState.handle_put_idata_resp, hop, hk]
    exact hpc _
  · intro hk
    simp only [HState.handle_put_idata_resp, hop, hk]

/-- Claim C5 amended, witness: a client-requester op at a concrete state. -/
theorem C5_theorem_witness :
    (HState.handle_put_idata_resp
        ⟨50, [(1000, IDataOp.new (PublicId.client 7 77)
          (IDataRequest.Put ⟨⟨100, IDataKind.Pub⟩, 5⟩) [1, 2, 3])], []⟩
        ⟨100, IDataKind.Pub⟩ 1 1000).1.metadata =
      [(⟨100, IDataKind.Pub⟩, ⟨[1], some 77⟩)] := by
  have h := (C5_theorem
    ⟨50, [(1000, IDataOp.new (PublicId.client 7 77)
      (IDataRequest.Put ⟨⟨100, IDataKind.Pub⟩, 5⟩) [1, 2, 3])], []⟩
    ⟨100, IDataKind.Pub⟩ 1 1000
    (IDataOp.new (PublicId.client 7 77)
      (IDataRequest.Put ⟨⟨100, IDataKind.Pub⟩, 5⟩) [1, 2, 3])
    77 (by decide)).1 (by decide)
  rw [h.1]
  decide

/-- Claim C6: on an Ok DELETE response from a holder the sender is removed
from the persisted holders, the record being dropped entirely when the set
empties; and at conclusion the single client response is `Mutation(Ok(()))`
when no errors were recorded, else the recorded error (the source asserts at
most one exists). -/
theorem C6_theorem (s : HState) (addr : IDataAddress) (sender : XorName)
    (mid : MessageId) (m : ChunkMetadata) (op : IDataOp) (r : NdResult Unit)
    (hm : lookupKey addr s.metadata = some m) (hs : sender ∈ m.holders)
    (hop : lookupKey mid s.idata_ops = some op)
    (herr : op.get_any_errors.length ≤ 1) :
    ((s.handle_delete_unpub_idata_resp addr sender (NdResult.ok ()) mid).map
        (fun p => p.1.metadata) =
      some (if (setRemove sender m.holders).isEmpty then eraseKey addr s.metadata
        else setKey addr ⟨setRemove sender m.holders, m.owner⟩ s.metadata)) ∧
    (op.concluded = false →
      (s.handle_delete_unpub_idata_resp addr sender r mid).map (fun p => p.2) =
        some none) ∧
    (op.concluded = true →
      (s.handle_delete_unpub_idata_resp addr sender r mid).map (fun p => p.2) =
        some (some (Action.RespondToClientHandlers addr.name
          (Rpc.response op.client
            (Response.Mutation
              (match op.get_any_errors.head? with
              | some pe => NdResult.error pe.2
              | none => NdResult.ok ())) mid none)))) := by
  have hsh1 := conclude_shape { s with metadata := eraseKey addr s.metadata } addr mid op hop
  have hsh2 := conclude_shape
    { s with metadata := setKey addr ⟨setRemove sender m.holders, m.owner⟩ s.metadata }
    addr mid op hop
  have hsh0 := conclude_shape s addr mid op hop
  refine ⟨?_, ?_, ?_⟩
  · rw [delete_resp_ok_state s addr sender mid m hm hs]
    by_cases he : (setRemove sender m.holders).isEmpty
    · rw [if_pos he, if_pos he]
      rcases hc : op.concluded with _ | _
      · rw [hsh1.1 hc]
        rfl
      · rw [hsh1.2 hc herr]
        rfl
    · rw [if_neg he, if_neg he]
      rcases hc : op.concluded with _ | _
      · rw [hsh2.1 hc]
        rfl
      · rw [hsh2.2 hc herr]
        rfl
  · intro hc
    rcases r with _ | e
    · rw [delete_resp_ok_state s addr sender mid m hm hs]
      by_cases he : (setRemove sender m.holders).isEmpty
      · rw [if_pos he, hsh1.1 hc]
        rfl
      · rw [if_neg he, hsh2.1 hc]
        rfl
    · rw [delete_resp_err_state, hsh0.1 hc]
      rfl
  · intro hc
    rcases r with _ | e
    · rw [delete_resp_ok_state s addr sender mid m hm hs]
      by_cases he : (setRemove sender m.holders).isEmpty
      · rw [if_pos he, hsh1.2 hc herr]
        rfl
      · rw [if_neg he, hsh2.2 hc herr]
        rfl
    · rw [delete_resp_err_state, hsh0.2 hc herr]
      rfl

/-- Claim C6, witness: metadata `{holders: [1, 2]}`; holder 1 answers Ok on a
not-yet-concluded op, then the concluded op with one recorded error yields
that error. -/
theorem C6_theorem_witness :
    ((HState.handle_delete_unpub_idata_resp
        ⟨50, [(3000, IDataOp.new (PublicId.client 7 77)
          (IDataRequest.DeleteUnpub ⟨100, IDataKind.Unpub⟩) [1, 2])],
          [(⟨100, IDataKind.Unpub⟩, ⟨[1, 2], some 77⟩)]⟩
        ⟨100, IDataKind.Unpub⟩ 1 (NdResult.ok ()) 3000).map
        (fun p => p.1.metadata) =
      some [(⟨100, IDataKind.Unpub⟩, ⟨[2], some 77⟩)]) ∧
    ((HState.handle_delete_unpub_idata_resp
        ⟨50, [(3000, ⟨PublicId.client 7 77,
          IDataRequest.DeleteUnpub ⟨100, IDataKind.Unpub⟩,
          [(1, RpcState.Actioned (some (NdError.Other 4))),
            (2, RpcState.Actioned none)]⟩)],
          [(⟨100, IDataKind.Unpub⟩, ⟨[1, 2], some 77⟩)]⟩
        ⟨100, IDataKind.Unpub⟩ 1 (NdResult.ok ()) 3000).map (fun p => p.2) =
      some (some (Action.RespondToClientHandlers 100
        (Rpc.response (PublicId.client 7 77)
          (Response.Mutation (NdResult.error (NdError.Other 4))) 3000 none)))) := by
  constructor
  · have h := (C6_theorem
      ⟨50, [(3000, IDataOp.new (PublicId.client 7 77)
        (IDataRequest.DeleteUnpub ⟨100, IDataKind.Unpub⟩) [1, 2])],
        [(⟨100, IDataKind.Unpub⟩, ⟨[1, 2], some 77⟩)]⟩
      ⟨100, IDataKind.Unpub⟩ 1 3000 ⟨[1, 2], some 77⟩
      (IDataOp.new (PublicId.client 7 77)
        (IDataRequest.DeleteUnpub ⟨100, IDataKind.Unpub⟩) [1, 2])
      (NdResult.ok ()) (by decide) (by decide) (by decide) (by decide)).1
    rw [h]
    decide
  · have h := (C6_theorem
      ⟨50, [(3000, ⟨PublicId.client 7 77,
        IDataRequest.DeleteUnpub ⟨100, IDataKind.Unpub⟩,
        [(1, RpcState.Actioned (some (NdError.Other 4))),
          (2, RpcState.Actioned none)]⟩)],
        [(⟨100, IDataKind.Unpub⟩, ⟨[1, 2], some 77⟩)]⟩
      ⟨100, IDataKind.Unpub⟩ 1 3000 ⟨[1, 2], some 77⟩
      ⟨PublicId.client 7 77,
        IDataRequest.DeleteUnpub ⟨100, IDataKind.Unpub⟩,
        [(1, RpcState.Actioned (some (NdError.Other 4))),
          (2, RpcState.Actioned none)]⟩
      (NdResult.ok ()) (by decide) (by decide) (by decide) (by decide)).2.2 (by decide)
    rw [h]
    decide

/-- Claim C8, counterexample: a DELETE-unpublished operation over holders
1, 2, 3 where two holders report errors.  Each holder delivers exactly one
response, yet when the last response concludes the op the source asserts
`errors_for_req.len() <= 1` and panics (modelled as `none`), so zero
client-visible responses are emitted, not exactly one. -/
theorem C8_counterexample :
    run_mutation_resps 3000
      ⟨50, [(3000, IDataOp.new (PublicId.client 7 77)
        (IDataRequest.DeleteUnpub ⟨100, IDataKind.Unpub⟩) [1, 2, 3])],
        [(⟨100, IDataKind.Unpub⟩, ⟨[1, 2, 3], some 77⟩)]⟩
      [(1, NdResult.error (NdError.Other 1)), (2, NdResult.error (NdError.Other 2)),
        (3, NdResult.ok ())] = none := by
  decide

/-- Claim C8 as amended: for every admitted client request whose operation
covers a non-empty holder set, assuming each targeted holder delivers exactly
one response AND (for DELETE) at most one holder reports an error — the
source asserts this and aborts otherwise — the handlers emit exactly one
client-visible response action for that message id: the op concludes on the
last mutation response (PUT, DELETE) or answers on the first response and
absorbs the rest (GET). -/
theorem C8_theorem (mid : MessageId) :
    (∀ (s : HState) (requester : PublicId) (data : IData) (k : PublicKey)
      (holders : List XorName) (resps : List (XorName × NdResult Unit)),
      s.idata_ops = [(mid, IDataOp.new requester (IDataRequest.Put data) holders)] →
      own_key requester = some k →
      holders.Nodup →
      (resps.map Prod.fst).Nodup →
      (∀ h, h ∈ resps.map Prod.fst ↔ h ∈ holders) →
      holders ≠ [] →
      ∃ sf, run_mutation_resps mid s resps = some (sf, 1)) ∧
    (∀ (s : HState) (requester : PublicId) (addrD : IDataAddress)
      (holders : List XorName) (resps : List (XorName × NdResult Unit)),
      s.idata_ops =
        [(mid, IDataOp.new requester (IDataRequest.DeleteUnpub addrD) holders)] →
      holders.Nodup →
      (resps.map Prod.fst).Nodup →
      (∀ h, h ∈ resps.map Prod.fst ↔ h ∈ holders) →
      (resps.filter (fun r => r.2.is_err)).length ≤ 1 →
      holders ≠ [] →
      ∃ sf, run_mutation_resps mid s resps = some (sf, 1)) ∧
    (∀ (s : HState) (requester : PublicId) (addrG : IDataAddress)
      (holders : List XorName) (resps : List (XorName × NdResult IData)),
      s.idata_ops =
        [(mid, IDataOp.new requester (IDataRequest.Get addrG) holders)] →
      (∀ h, h ∈ resps.map Prod.fst ↔ h ∈ holders) →
      resps ≠ [] →
      (run_get_resps mid s resps).2 = 1) := by
  refine ⟨?_, ?_, ?_⟩
  · intro s requester data k holders resps hso hk hnh hnds hmem hne
    have hinv : ∀ h,
        lookupKey h (IDataOp.new requester (IDataRequest.Put data) holders).rpc_states =
          some RpcState.Sent ↔ h ∈ resps.map Prod.fst := by
      intro h
      show lookupKey h (holders.map (fun x => (x, RpcState.Sent))) =
          some RpcState.Sent ↔ h ∈ resps.map Prod.fst
      rw [lookupKey_new_states]
      by_cases hh : h ∈ holders
      · simp [hh, (hmem h).mpr hh]
      · simp only [hh, if_false]
        simp [hmem h, hh]
    have hkeys : ((IDataOp.new requester (IDataRequest.Put data)
        holders).rpc_states.map Prod.fst).Nodup := by
      show ((holders.map (fun x => (x, RpcState.Sent))).map Prod.fst).Nodup
      rw [new_op_keys]
      exact hnh
    have hrne : resps ≠ [] := by
      intro hcontr
      obtain ⟨h0, hh0⟩ := List.exists_mem_of_ne_nil holders hne
      have hm := (hmem h0).mpr hh0
      rw [hcontr] at hm
      simp at hm
    exact run_put_loop mid data k resps s _ hso rfl hk hkeys hnds hinv hrne
  · intro s requester addrD holders resps hso hnh hnds hmem herr hne
    have hinv : ∀ h,
        lookupKey h (IDataOp.new requester
          (IDataRequest.DeleteUnpub addrD) holders).rpc_states =
          some RpcState.Sent ↔ h ∈ resps.map Prod.fst := by
      intro h
      show lookupKey h (holders.map (fun x => (x, RpcState.Sent))) =
          some RpcState.Sent ↔ h ∈ resps.map Prod.fst
      rw [lookupKey_new_states]
      by_cases hh : h ∈ holders
      · simp [hh, (hmem h).mpr hh]
      · simp only [hh, if_false]
        simp [hmem h, hh]
    have hkeys : ((IDataOp.new requester (IDataRequest.DeleteUnpub addrD)
        holders).rpc_states.map Prod.fst).Nodup := by
      show ((holders.map (fun x => (x, RpcState.Sent))).map Prod.fst).Nodup
      rw [new_op_keys]
      exact hnh
    have hrne : resps ≠ [] := by
      intro hcontr
      obtain ⟨h0, hh0⟩ := List.exists_mem_of_ne_nil holders hne
      have hm := (hmem h0).mpr hh0
      rw [hcontr] at hm
      simp at hm
    have herrtot : (IDataOp.new requester
        (IDataRequest.DeleteUnpub addrD) holders).get_any_errors.length +
        (resps.filter (fun r => r.2.is_err)).length ≤ 1 := by
      rw [new_op_errors]
      simpa using herr
    exact run_delete_loop mid addrD resps s _ hso rfl hkeys hnds hinv herrtot hrne
  · intro s requester addrG holders resps hso hmem hne
    cases resps with
    | nil => exact absurd rfl hne
    | cons r rs =>
      obtain ⟨x, rv⟩ := r
      have hxh : x ∈ holders := (hmem x).mp (by simp)
      have hx : (lookupKey x (IDataOp.new requester
          (IDataRequest.Get addrG) holders).rpc_states).isSome = true := by
        show (lookupKey x (holders.map (fun y => (y, RpcState.Sent)))).isSome = true
        rw [lookupKey_new_states]
        simp [hxh]
      exact run_get_loop mid addrG s _ x rv rs hso rfl
        (is_any_actioned_new requester (IDataRequest.Get addrG) holders) hx

/-- Claim C8 amended, witness: the three-holder PUT, DELETE and GET
scenarios at concrete states, each trace yielding exactly one client
response. -/
theorem C8_theorem_witness :
    (∃ sf, run_mutation_resps 1000
      ⟨50, [(1000, IDataOp.new (PublicId.client 7 77)
        (IDataRequest.Put ⟨⟨100, IDataKind.Pub⟩, 5⟩) [1, 2, 3])], []⟩
      [(1, NdResult.ok ()), (2, NdResult.ok ()), (3, NdResult.ok ())] =
        some (sf, 1)) ∧
    (∃ sf, run_mutation_resps 3000
      ⟨50, [(3000, IDataOp.new (PublicId.client 7 77)
        (IDataRequest.DeleteUnpub ⟨100, IDataKind.Unpub⟩) [1, 2, 3])],
        [(⟨100, IDataKind.Unpub⟩, ⟨[1, 2, 3], some 77⟩)]⟩
      [(1, NdResult.ok ()), (2, NdResult.error (NdError.Other 2)),
        (3, NdResult.ok ())] = some (sf, 1)) ∧
    (run_get_resps 2000
      ⟨50, [(2000, IDataOp.new (PublicId.client 7 77)
        (IDataRequest.Get ⟨100, IDataKind.Pub⟩) [1, 2, 3])], []⟩
      [(1, NdResult.ok ⟨⟨100, IDataKind.Pub⟩, 5⟩),
        (2, NdResult.error (NdError.Other 3)),
        (3, NdResult.ok ⟨⟨100, IDataKind.Pub⟩, 5⟩)]).2 = 1 := by
  refine ⟨?_, ?_, ?_⟩
  · exact (C8_theorem 1000).1
      ⟨50, [(1000, IDataOp.new (PublicId.client 7 77)
        (IDataRequest.Put ⟨⟨100, IDataKind.Pub⟩, 5⟩) [1, 2, 3])], []⟩
      (PublicId.client 7 77) ⟨⟨100, IDataKind.Pub⟩, 5⟩ 77 [1, 2, 3]
      [(1, NdResult.ok ()), (2, NdResult.ok ()), (3, NdResult.ok ())]
      rfl (by decide) (by decide) (by decide) (fun h => Iff.rfl) (by decide)
  · exact (C8_theorem 3000).2.1
      ⟨50, [(3000, IDataOp.new (PublicId.client 7 77)
        (IDataRequest.DeleteUnpub ⟨100, IDataKind.Unpub⟩) [1, 2, 3])],
        [(⟨100, IDataKind.Unpub⟩, ⟨[1, 2, 3], some 77⟩)]⟩
      (PublicId.client 7 77) ⟨100, IDataKind.Unpub⟩ [1, 2, 3]
      [(1, NdResult.ok ()), (2, NdResult.error (NdError.Other 2)),
        (3, NdResult.ok ())]
      rfl (by decide) (by decide) (fun h => Iff.rfl) (by decide) (by decide)
  · exact (C8_theorem 2000).2.2
      ⟨50, [(2000, IDataOp.new (PublicId.client 7 77)
        (IDataRequest.Get ⟨100, IDataKind.Pub⟩) [1, 2, 3])], []⟩
      (PublicId.client 7 77) ⟨100, IDataKind.Pub⟩ [1, 2, 3]
      [(1, NdResult.ok ⟨⟨100, IDataKind.Pub⟩, 5⟩),
        (2, NdResult.error (NdError.Other 3)),
        (3, NdResult.ok ⟨⟨100, IDataKind.Pub⟩, 5⟩)]
      rfl (fun h => Iff.rfl) (by decide)

/-- Claim C9, counterexample: a vault constructed with no state file writes
`(false, id)` once; a `Promoted` event makes the in-memory state Elder but
the persisted flag stays `false`, so they disagree after the transition. -/
theorem C9_counterexample :
    (handle_routing_event (vault_new none 42) RoutingEvent.Promoted).state.is_elder = true ∧
    (handle_routing_event (vault_new none 42) RoutingEvent.Promoted).disk =
      some (false, 42) := by
  decide

/-- Claim C9 as amended: the state file holds a single `(is_elder, id)`
record; it is read at startup to pick the starting role (Elder exactly when
the flag is set) and written once at construction, where it agrees with the
in-memory state; role transitions never rewrite it, so after any sequence of
routing events the persisted flag still records only the starting role. -/
theorem C9_theorem (prev_disk : Option (Bool × Nat)) (fresh_id : Nat)
    (events : List RoutingEvent) :
    (vault_new prev_disk fresh_id).disk =
      some ((vault_new prev_disk fresh_id).state.is_elder,
        (vault_new prev_disk fresh_id).id) ∧
    (vault_new prev_disk fresh_id).state.is_elder =
      (prev_disk.getD (false, fresh_id)).1 ∧
    (events.foldl handle_routing_event (vault_new prev_disk fresh_id)).disk =
      (vault_new prev_disk fresh_id).disk := by
  refine ⟨?_, ?_, ?_⟩
  · rfl
  · rcases prev_disk with _ | p
    · rfl
    · rcases p with ⟨b, i⟩
      cases b <;> rfl
  · generalize vault_new prev_disk fresh_id = v
    induction events generalizing v with
    | nil => rfl
    | cons e rest ih =>
      rw [List.foldl_cons]
      rw [ih (handle_routing_event v e)]
      cases e <;> rfl

/-- Claim C10: a `Connected` routing event replaces any current role state,
including Elder, with a fresh Adult state (data handler built with
`Init::New`, new accumulator) that has no client handler. -/
theorem C10_theorem (v : VaultModel) :
    handle_routing_event v RoutingEvent.Connected =
      { v with state := VState.Adult (freshDataHandler v.id) [] } ∧
    (handle_routing_event v RoutingEvent.Connected).state.has_client_handler = false := by
  exact ⟨rfl, rfl⟩

end Vault
